import Mathlib

/-!
# Reconciliation contract of the `AwsIamRole` component and the run dispatcher

A shallow embedding of `registry/AwsIamRole/src/index.js` (the diff engine
`shouldDeploy`, the lifecycle driver `deploy` / `remove` and their helpers), of
`src/utils/addEnvVarsToCredentials.js` and of `src/lib/run.js` (`run`,
`runProgrammatic`, `runDeclarative`).

JavaScript values are a first-order datatype; an object or array carries the
reference it lives at, so that `===` / `!==` (identity on objects) and the deep
comparison `equals` can both be expressed.  Asynchronous provider calls are
modelled by the answers of the client (`IAM`) and a trace of the effects issued.
-/

namespace Components

/-! ## JavaScript values -/

mutual
/-- A JavaScript value.  Objects and arrays carry their reference `ref`. -/
inductive JsVal where
  | undefined
  | null
  | bool (b : Bool)
  | num (n : Int)
  | str (s : String)
  | obj (ref : Nat) (fields : JsFields)
  | arr (ref : Nat) (elems : JsElems)
/-- The own enumerable properties of an object, in insertion order. -/
inductive JsFields where
  | nil
  | cons (key : String) (val : JsVal) (rest : JsFields)
/-- The elements of an array. -/
inductive JsElems where
  | nil
  | cons (val : JsVal) (rest : JsElems)
end

deriving instance DecidableEq for JsVal, JsFields, JsElems

/-- Number of properties: `keys(o).length`. -/
def JsFields.length : JsFields → Nat
  | .nil => 0
  | .cons _ _ rest => rest.length + 1

/-- Number of elements of an array. -/
def JsElems.length : JsElems → Nat
  | .nil => 0
  | .cons _ rest => rest.length + 1

/-- The property stored under `key`, if the object has one. -/
def JsFields.lookup : JsFields → String → Option JsVal
  | .nil, _ => none
  | .cons k v rest, key => if k = key then some v else rest.lookup key

/-- Test `key in o`. -/
def JsFields.has (o : JsFields) (key : String) : Bool :=
  (o.lookup key).isSome

/-- Property read `o[key]`: `undefined` when the property is missing. -/
def JsFields.get (o : JsFields) (key : String) : JsVal :=
  (o.lookup key).getD .undefined

/-- Assignment `o[key] = v`: overwrite in place, or append a new property. -/
def JsFields.set : JsFields → String → JsVal → JsFields
  | .nil, key, v => .cons key v .nil
  | .cons k w rest, key, v =>
    if k = key then .cons k v rest else .cons k w (rest.set key v)

/-- Build an object literal from a list of properties. -/
def JsFields.ofList : List (String × JsVal) → JsFields
  | [] => .nil
  | (k, v) :: rest => .cons k v (JsFields.ofList rest)

/-- Build an array literal. -/
def JsElems.ofList : List JsVal → JsElems
  | [] => .nil
  | v :: rest => .cons v (JsElems.ofList rest)

/-- Truthiness of a value, as tested by `if (v)` and `!v`. -/
def JsVal.truthy : JsVal → Bool
  | .undefined => false
  | .null => false
  | .bool b => b
  | .num n => n != 0
  | .str s => s != ""
  | .obj _ _ => true
  | .arr _ _ => true

/-- Absent values: `undefined` and `null`. -/
def JsVal.isNil : JsVal → Bool
  | .undefined => true
  | .null => true
  | _ => false

/-- Primitive values: everything but objects and arrays. -/
def JsVal.isPrimitive : JsVal → Bool
  | .obj _ _ => false
  | .arr _ _ => false
  | _ => true

/-- Strict equality `a === b`: primitives by value, objects and arrays by reference. -/
def strictEq : JsVal → JsVal → Bool
  | .undefined, .undefined => true
  | .null, .null => true
  | .bool a, .bool b => a == b
  | .num a, .num b => a == b
  | .str a, .str b => a == b
  | .obj r _, .obj s _ => r == s
  | .arr r _, .arr s _ => r == s
  | _, _ => false

mutual
/-- Deep comparison `equals(a, b)` of the utils package (Ramda): identical values are
equal; otherwise two objects are equal when they have the same number of keys and
every key of the first is a key of the second with an equal value (the order of the
keys does not matter); two arrays are equal when they have the same length and equal
elements. -/
def equals : JsVal → JsVal → Bool
  | .undefined, b => b == .undefined
  | .null, b => b == .null
  | .bool a, b => b == .bool a
  | .num a, b => b == .num a
  | .str a, b => b == .str a
  | .obj r fa, b =>
    match b with
    | .obj s fb => r == s || (fa.length == fb.length && equalsFields fa fb)
    | _ => false
  | .arr r ea, b =>
    match b with
    | .arr s eb => r == s || equalsElems ea eb
    | _ => false
/-- Every key of the first object is a key of the second, with an equal value. -/
def equalsFields : JsFields → JsFields → Bool
  | .nil, _ => true
  | .cons k v rest, fb =>
    (match fb.lookup k with
     | some w => equals v w
     | none => false) && equalsFields rest fb
/-- Same length and pairwise equal elements. -/
def equalsElems : JsElems → JsElems → Bool
  | .nil, eb => eb == .nil
  | .cons v rest, eb =>
    match eb with
    | .cons w rest2 => equals v w && equalsElems rest rest2
    | .nil => false
end

/-- Comparison of two distinct object literals: `equals(a, b)` where `a` and `b` were
just built, hence are not the same reference. -/
def equalsObjects (a b : JsFields) : Bool :=
  a.length == b.length && equalsFields a b

/-- Projection `pick(names, o)`: a fresh object that has, for each name in `names` that
is a property of `o`, that property with its value; names missing from `o` are skipped. -/
def pick : List String → JsFields → JsFields
  | [], _ => .nil
  | name :: rest, o =>
    match o.lookup name with
    | some v => .cons name v (pick rest o)
    | none => pick rest o

/-- Own keys of an object, in insertion order: `keys(o)`. -/
def keys : JsFields → List String
  | .nil => []
  | .cons k _ rest => k :: keys rest

mutual
/-- Well-formed values: inside the value no object has two properties with the same key
(as is the case of every JavaScript object). -/
def JsVal.wf : JsVal → Bool
  | .obj _ fs => fs.wf
  | .arr _ es => es.wf
  | _ => true
/-- The keys are pairwise distinct and the values are well formed. -/
def JsFields.wf : JsFields → Bool
  | .nil => true
  | .cons k v rest => !(rest.has k) && v.wf && rest.wf
/-- The elements are well formed. -/
def JsElems.wf : JsElems → Bool
  | .nil => true
  | .cons v rest => v.wf && rest.wf
end

/-! ## Strings: `ToString`, `JSON.stringify`, `String.prototype.includes` -/

/-- The double quote character, as a string. -/
def dquote : String := String.singleton (Char.ofNat 34)

/-- The backslash character, as a string. -/
def backslash : String := String.singleton (Char.ofNat 92)

mutual
/-- String conversion of a value inside a template literal. -/
def toStr : JsVal → String
  | .undefined => "undefined"
  | .null => "null"
  | .bool b => if b then "true" else "false"
  | .num n => toString n
  | .str s => s
  | .obj _ _ => "[object Object]"
  | .arr _ es => toStrElems es
/-- The elements of an array joined by commas; absent elements give the empty string. -/
def toStrElems : JsElems → String
  | .nil => ""
  | .cons v rest =>
    (if v.isNil then "" else toStr v) ++
      (match rest with
       | .nil => ""
       | .cons _ _ => "," ++ toStrElems rest)
end

/-- One hexadecimal digit, lower case. -/
def hexDigit (n : Nat) : Char :=
  if n < 10 then Char.ofNat (48 + n) else Char.ofNat (87 + n)

/-- Escape of one character inside a JSON string. -/
def jsonEscapeChar (c : Char) : String :=
  if c = Char.ofNat 34 then backslash ++ dquote
  else if c = Char.ofNat 92 then backslash ++ backslash
  else if c = Char.ofNat 8 then backslash ++ "b"
  else if c = Char.ofNat 12 then backslash ++ "f"
  else if c = Char.ofNat 10 then backslash ++ "n"
  else if c = Char.ofNat 13 then backslash ++ "r"
  else if c = Char.ofNat 9 then backslash ++ "t"
  else if c.toNat < 32 then
    backslash ++ "u00" ++ String.mk [hexDigit (c.toNat / 16), hexDigit (c.toNat % 16)]
  else String.singleton c

/-- A JSON string literal. -/
def jsonQuote (s : String) : String :=
  dquote ++ String.join (s.data.map jsonEscapeChar) ++ dquote

mutual
/-- Serialization of a value by `JSON.stringify`; `none` when the value has no JSON text
(`undefined`). -/
def stringifyVal : JsVal → Option String
  | .undefined => none
  | .null => some "null"
  | .bool b => some (if b then "true" else "false")
  | .num n => some (toString n)
  | .str s => some (jsonQuote s)
  | .obj _ fs => some ("\x7b" ++ String.intercalate "," (stringifyFields fs) ++ "\x7d")
  | .arr _ es => some ("[" ++ String.intercalate "," (stringifyElems es) ++ "]")
/-- The members of an object; a property whose value is `undefined` is left out. -/
def stringifyFields : JsFields → List String
  | .nil => []
  | .cons k v rest =>
    match stringifyVal v with
    | some t => (jsonQuote k ++ ":" ++ t) :: stringifyFields rest
    | none => stringifyFields rest
/-- The elements of an array; an `undefined` element is written `null`. -/
def stringifyElems : JsElems → List String
  | .nil => []
  | .cons v rest => (stringifyVal v).getD "null" :: stringifyElems rest
end

/-- The built-in `JSON.stringify(v)`: a string, or `undefined`. -/
def JSON.stringify (v : JsVal) : JsVal :=
  match stringifyVal v with
  | some t => .str t
  | none => .undefined

/-- The built-in `s.includes(t)`: `t` occurs in `s` as a contiguous substring. -/
def includes (s t : String) : Bool :=
  s.data.tails.any (fun l => t.data.isPrefixOf l)

/-! ## Errors, provider requests and asynchronous computations -/

/-- A thrown JavaScript error; only its `message` is inspected by the code. -/
structure JsError where
  message : String
deriving DecidableEq

/-- A request sent to the IAM client, with the parameters the code passes. -/
inductive Request where
  | createRole (RoleName : JsVal) (Path : JsVal) (AssumeRolePolicyDocument : JsVal)
  | attachRolePolicy (RoleName : JsVal) (PolicyArn : JsVal)
  | detachRolePolicy (RoleName : JsVal) (PolicyArn : JsVal)
  | updateAssumeRolePolicy (RoleName : JsVal) (PolicyDocument : JsVal)
  | deleteRole (RoleName : JsVal)
deriving DecidableEq

/-- An observable effect: a provider request, or the settle wait `sleep(ms)`. -/
inductive Effect where
  | call (r : Request)
  | sleep (ms : Nat)
deriving DecidableEq

/-- The IAM client `new AWS.IAM()`: each request either resolves to a response or rejects
with an error. -/
abbrev IAM := Request → Except JsError JsVal

/-- An awaited computation: the effects it issued, in order, and how it settled. -/
structure Async (α : Type) where
  trace : List Effect
  outcome : Except JsError α

/-- Sequencing of awaited computations: a rejection skips what follows. -/
def Async.bind {α β : Type} (x : Async α) (f : α → Async β) : Async β :=
  match x.outcome with
  | .error e => ⟨x.trace, .error e⟩
  | .ok a => ⟨x.trace ++ (f a).trace, (f a).outcome⟩

instance : Monad Async where
  pure a := ⟨[], .ok a⟩
  bind := Async.bind

/-- The statement `throw e`. -/
def Async.throw {α : Type} (e : JsError) : Async α := ⟨[], .error e⟩

/-- The block `try { x } catch (e) { handler e }`. -/
def Async.tryCatch {α : Type} (x : Async α) (handler : JsError → Async α) : Async α :=
  match x.outcome with
  | .ok a => ⟨x.trace, .ok a⟩
  | .error e => ⟨x.trace ++ (handler e).trace, (handler e).outcome⟩

/-- Awaiting `IAM.<operation>(params).promise()`. -/
def IAM.send (iam : IAM) (r : Request) : Async JsVal := ⟨[.call r], iam r⟩

/-- The settle wait `sleep(ms)` of the utils package; it always resolves. -/
def sleep (ms : Nat) : Async Unit := ⟨[.sleep ms], .ok ()⟩

/-- The value of `v.key` when `v` is not absent: the property on an object, `undefined` on
the other values (for the keys read by the code: `arn`, `Role`, `Arn`). -/
def readProp : JsVal → String → JsVal
  | .obj _ fs, key => fs.get key
  | _, _ => .undefined

/-- Property read `v.key` on an arbitrary value: a `TypeError` is thrown on `undefined`
and on `null`. -/
def getProp (v : JsVal) (key : String) : Async JsVal :=
  match v with
  | .undefined =>
    Async.throw ⟨"Cannot read property \x27" ++ key ++ "\x27 of undefined"⟩
  | .null => Async.throw ⟨"Cannot read property \x27" ++ key ++ "\x27 of null"⟩
  | _ => pure (readProp v key)

/-- Number of requests of a trace that satisfy `p`. -/
def countCalls (p : Request → Bool) (t : List Effect) : Nat :=
  t.countP (fun e => match e with
    | .call r => p r
    | .sleep _ => false)

/-- Recognizer of `createRole` requests. -/
def Request.isCreateRole : Request → Bool
  | .createRole _ _ _ => true
  | _ => false

/-- Recognizer of `attachRolePolicy` requests. -/
def Request.isAttachRolePolicy : Request → Bool
  | .attachRolePolicy _ _ => true
  | _ => false

/-- Recognizer of `detachRolePolicy` requests. -/
def Request.isDetachRolePolicy : Request → Bool
  | .detachRolePolicy _ _ => true
  | _ => false

/-- Recognizer of `updateAssumeRolePolicy` requests. -/
def Request.isUpdateAssumeRolePolicy : Request → Bool
  | .updateAssumeRolePolicy _ _ => true
  | _ => false

/-- Recognizer of `deleteRole` requests. -/
def Request.isDeleteRole : Request → Bool
  | .deleteRole _ => true
  | _ => false

/-! ## Resolvable values -/

/-- A configuration value: either plain, or deferred behind a zero-argument function. -/
inductive Resolvable (α : Type) where
  | plain (v : α)
  | deferred (fn : Unit → Resolvable α)

/-- Modelled from the spec: `resolve` of the utils package, which is not under src/.
"If `value` is a Resolvable, invoke its function and recursively resolve the result;
otherwise return `value` unchanged." -/
def resolve {α : Type} : Resolvable α → α
  | .plain v => v
  | .deferred fn => resolve (fn ())

/-- Modelled from the spec: `resolvable(fn)` of the utils package, which is not under src/.
It "wraps `fn` so it is recognized as deferred". -/
def resolvable {α : Type} (fn : Unit → Resolvable α) : Resolvable α :=
  .deferred fn

/-- Modelled from the spec: `or(a, b)` of the utils package, which is not under src/.
It "resolves `a`, and if it resolves to an absent value (undefined/null), resolves and
returns `b` instead".  An absent value is `none`. -/
def Resolvable.or {α : Type} (a : Resolvable (Option α)) (b : Resolvable α) : α :=
  match resolve a with
  | some v => v
  | none => resolve b

/-! ## The `AwsIamRole` component -/

/-- An object value together with its reference: a policy `{ arn }`. -/
structure JsObj where
  ref : Nat
  fields : JsFields
deriving DecidableEq

/-- The object as a value. -/
def JsObj.toVal (o : JsObj) : JsVal := .obj o.ref o.fields

/-- The inputs handed to `construct`.  `roleName` and `policy` may be absent (`none`);
`service` is any value (a principal, a list of principals, or `undefined`). -/
structure Inputs where
  roleName : Resolvable (Option String)
  service : Resolvable JsVal
  policy : Resolvable (Option JsObj)

/-- An `AwsIamRole` instance.  With `F = Resolvable` the fields are as `construct` leaves
them (possibly deferred); with `F = Id` they are resolved values, which is the state in
which `deploy` and `remove` are run.  `roleName` is a string, `policy` an object, `service`
any value, `arn` the derived identifier. -/
structure AwsIamRole (F : Type → Type) where
  instanceId : String
  service : F JsVal
  policy : F JsObj
  roleName : F String
  arn : JsVal

/-- The default policy of `construct`, allocated at reference `fresh`. -/
def defaultPolicy (fresh : Nat) : JsObj :=
  ⟨fresh, .cons "arn" (.str "arn:aws:iam::aws:policy/AdministratorAccess") .nil⟩

/-- The method `construct(inputs, context)`; `fresh` is the reference at which the default
policy object is allocated.  The derived identifier `arn` is not set. -/
def construct (inputs : Inputs) (instanceId : String) (fresh : Nat) : AwsIamRole Resolvable where
  instanceId := instanceId
  service := inputs.service
  policy := resolvable (fun _ => .plain (Resolvable.or inputs.policy (.plain (defaultPolicy fresh))))
  roleName := resolvable (fun _ => .plain (Resolvable.or inputs.roleName (.plain ("role-" ++ instanceId))))
  arn := .undefined

/-- Modelled from the spec: `resolveComponentEvaluables`, which is not under src/ (the
tests call it before `deploy`).  "Inputs reflect fully-resolved (non-deferred) values
before diffing or provider calls." -/
def resolveComponentEvaluables (c : AwsIamRole Resolvable) : AwsIamRole Id where
  instanceId := c.instanceId
  service := resolve c.service
  policy := resolve c.policy
  roleName := resolve c.roleName
  arn := c.arn

/-- A resolved instance seen as an instance whose fields are plain resolvables. -/
def AwsIamRole.toResolvable (c : AwsIamRole Id) : AwsIamRole Resolvable where
  instanceId := c.instanceId
  service := .plain c.service
  policy := .plain c.policy
  roleName := .plain c.roleName
  arn := c.arn

/-- The object literal `inputs` built by `shouldDeploy`. -/
def shouldDeployInputs (this : AwsIamRole Resolvable) : JsFields :=
  .cons "roleName" (.str (resolve this.roleName))
    (.cons "service" (resolve this.service)
      (.cons "policy" (resolve this.policy).toVal .nil))

/-- The method `shouldDeploy(prevInstance)`.  The previous instance is absent (`none`, for
`undefined` or `null`) or an object; the result is `replace`, `deploy` or `undefined`. -/
def shouldDeploy (this : AwsIamRole Resolvable) (prevInstance : Option JsFields) : JsVal :=
  let inputs := shouldDeployInputs this
  let prevInputs :=
    match prevInstance with
    | some prev => pick (keys inputs) prev
    | none => .nil
  let configChanged := !(equalsObjects inputs prevInputs)
  if (match prevInstance with
      | some prev => !(strictEq (prev.get "roleName") (inputs.get "roleName"))
      | none => false) then .str "replace"
  else if prevInstance.isNone || configChanged then .str "deploy"
  else .undefined

/-- The trust document `assumeRolePolicyDocument` built by `createRole` and
`updateAssumeRolePolicy`, allocated at fresh references (which play no role). -/
def assumeRolePolicyDocument (service : JsVal) : JsVal :=
  .obj 0 (.cons "Version" (.str "2012-10-17")
    (.cons "Statement" (.obj 0 (.cons "Effect" (.str "Allow")
      (.cons "Principal" (.obj 0 (.cons "Service" service .nil))
        (.cons "Action" (.str "sts:AssumeRole") .nil)))) .nil))

/-- The helper `attachRolePolicy(IAM, { roleName, policy })`: one request, then the settle
wait of 15000 ms. -/
def attachRolePolicy (iam : IAM) (roleName policy : JsVal) : Async Unit := do
  let policyArn ← getProp policy "arn"
  let _ ← iam.send (.attachRolePolicy roleName policyArn)
  sleep 15000

/-- The helper `detachRolePolicy(IAM, { roleName, policy })`. -/
def detachRolePolicy (iam : IAM) (roleName policy : JsVal) : Async Unit := do
  let policyArn ← getProp policy "arn"
  let _ ← iam.send (.detachRolePolicy roleName policyArn)
  pure ()

/-- The helper `createRole(IAM, { roleName, service, policy })`: it returns
`roleRes.Role.Arn`, read after the policy is attached. -/
def createRole (iam : IAM) (roleName service policy : JsVal) : Async JsVal := do
  let roleRes ← iam.send
    (.createRole roleName (.str "/") (JSON.stringify (assumeRolePolicyDocument service)))
  attachRolePolicy iam roleName policy
  let role ← getProp roleRes "Role"
  getProp role "Arn"

/-- The helper `deleteRole(IAM, { roleName, policy })`: a failed detach is swallowed when
its message is exactly the policy-not-found message; then the role is deleted. -/
def deleteRole (iam : IAM) (roleName policy : JsVal) : Async JsVal := do
  Async.tryCatch (detachRolePolicy iam roleName policy) (fun error => do
    let policyArn ← getProp policy "arn"
    if error.message ≠ "Policy " ++ toStr policyArn ++ " was not found." then
      Async.throw error
    else pure ())
  let _ ← iam.send (.deleteRole roleName)
  pure .null

/-- The helper `updateAssumeRolePolicy(IAM, { roleName, service })`. -/
def updateAssumeRolePolicy (iam : IAM) (roleName service : JsVal) : Async Unit := do
  let _ ← iam.send
    (.updateAssumeRolePolicy roleName (JSON.stringify (assumeRolePolicyDocument service)))
  pure ()

/-- The method `deploy(prevInstance, context)` on an instance with resolved fields; `iam`
is the client obtained from the provider.  It resolves to the instance as the method leaves
it (`arn` is assigned on the create path only).  The log line is not modelled. -/
def deploy (iam : IAM) (this : AwsIamRole Id) (prevInstance : Option JsFields) :
    Async (AwsIamRole Id) :=
  let create : Async (AwsIamRole Id) := do
    let arn ← createRole iam (.str this.roleName) this.service this.policy.toVal
    pure { this with arn := arn }
  match prevInstance with
  | none => create
  | some prev =>
    if !(strictEq (.str this.roleName) (prev.get "roleName")) then create
    else do
      if !(strictEq (prev.get "service") this.service) then
        updateAssumeRolePolicy iam (.str this.roleName) this.service
      if !(equals (prev.get "policy") this.policy.toVal) then
        detachRolePolicy iam (prev.get "roleName") (prev.get "policy")
        attachRolePolicy iam (.str this.roleName) this.policy.toVal
      pure this

/-- The method `remove(context)` on an instance with resolved fields: an error whose
message contains `Role not found` is swallowed, whichever request raised it. -/
def remove (iam : IAM) (this : AwsIamRole Id) : Async (AwsIamRole Id) :=
  Async.tryCatch
    (do
      let arn ← deleteRole iam (.str this.roleName) this.policy.toVal
      pure { this with arn := arn })
    (fun e =>
      if !(includes e.message "Role not found") then Async.throw e
      else pure this)

/-! ## Environment credentials -/

/-- The table `providers`: for each provider, the environment variables that carry
credentials and the SDK configuration property of each. -/
def providers : List (String × List (String × String)) :=
  [("aws",
    [("AWS_ACCESS_KEY_ID", "accessKeyId"),
     ("AWS_SECRET_ACCESS_KEY", "secretAccessKey"),
     ("AWS_SESSION_TOKEN", "sessionToken")])]

/-- A credentials object: for each provider, an object of configuration properties (the
default `{}` of the parameter is the empty list). -/
abbrev Credentials := List (String × JsFields)

/-- The entry `credentials[provider]`, if there is one. -/
def Credentials.lookup : Credentials → String → Option JsFields
  | [], _ => none
  | (k, o) :: rest, provider => if k = provider then some o else Credentials.lookup rest provider

/-- Assignment `credentials[provider] = o`. -/
def Credentials.set : Credentials → String → JsFields → Credentials
  | [], provider, o => [(provider, o)]
  | (k, w) :: rest, provider, o =>
    if k = provider then (k, o) :: rest else (k, w) :: Credentials.set rest provider o

/-- The property `credentials[provider][field]`, if both exist. -/
def Credentials.field (c : Credentials) (provider field : String) : Option JsVal :=
  match Credentials.lookup c provider with
  | some o => o.lookup field
  | none => none

/-- One turn of the inner loop of `addEnvVarsToCredentials`, for the environment variable
`entry.1` mapped to the property `entry.2`. -/
def addEnvVar (envVars : JsFields) (provider : String) (credentials : Credentials)
    (entry : String × String) : Credentials :=
  if !(envVars.has entry.1) then credentials
  else
    let credentials :=
      if (Credentials.lookup credentials provider).isNone then
        Credentials.set credentials provider .nil
      else credentials
    let providerCredentials := (Credentials.lookup credentials provider).getD .nil
    if (providerCredentials.get entry.2).truthy then credentials
    else
      Credentials.set credentials provider
        (providerCredentials.set entry.2 (envVars.get entry.1))

/-- The function `addEnvVarsToCredentials(envVars, credentials)`; the object it mutates and
returns is given as the result. -/
def addEnvVarsToCredentials (envVars : JsFields) (credentials : Credentials) : Credentials :=
  providers.foldl
    (fun creds p => p.2.foldl (addEnvVar envVars p.1) creds)
    credentials

/-! ## The run dispatcher -/

/-- The colon character. -/
def colon : Char := Char.ofNat 58

/-- The pieces of a string cut at every occurrence of `::`, scanning from the left;
`acc` holds the characters of the current piece. -/
def splitColons : List Char → List Char → List String
  | acc, [] => [String.mk acc]
  | acc, [c] => [String.mk (acc ++ [c])]
  | acc, c :: d :: rest =>
    if c = colon ∧ d = colon then String.mk acc :: splitColons [] rest
    else splitColons (acc ++ [c]) (d :: rest)

/-- The built-in `key.split(\x27::\x27)`. -/
def split (key : String) : List String :=
  splitColons [] key.data

/-- Truthiness of an optional string (`undefined`, `null` and the empty string are
falsy). -/
def isSet (x : Option String) : Bool :=
  match x with
  | some s => s != ""
  | none => false

/-- The configuration handed to `run`: the options `root`, `stage`, `instance`, `method`
and `credentials` (the flags `verbose` and `debug` only set process-wide logging and are
not modelled). -/
structure Config where
  root : Option String
  stage : Option String
  instanceName : Option String
  methodName : Option String
  credentials : Credentials

/-- The object handed to a component constructor, without `context` and `cli` (which are
the same for every component of a run): the `name` given to the declarative root component,
the `id` given to a child component. -/
structure ComponentArgs where
  name : Option String
  id : Option String
deriving DecidableEq

/-- A component class as the dispatcher uses it, for the context of the run: its `name`,
whether its constructor throws, which methods a component has, and what calling the
component (`none`) or one of its methods (`some m`) resolves to. -/
structure ComponentClass where
  name : String
  construct : ComponentArgs → Except JsError Unit
  hasMethod : String → Bool
  call : ComponentArgs → Option String → Except JsError JsVal

/-- What the dispatcher does, in order. -/
inductive DispatchEvent where
  | cliConfig (stage : Option String) (parentComponent : String)
  | construct (className : String) (args : ComponentArgs)
  | invoke (className : String) (args : ComponentArgs) (method : Option String)
  | errorHandler (error : JsError) (name : String)
deriving DecidableEq

/-- What a run resolves to: the outputs of the invoked method, or the error returned by
the error handler. -/
inductive Outputs where
  | value (v : JsVal)
  | reported (error : JsError)
deriving DecidableEq

/-- An awaited computation of the dispatcher: the events so far and how it settled. -/
structure Dispatch (α : Type) where
  events : List DispatchEvent
  outcome : Except JsError α

/-- Sequencing: a thrown error skips what follows. -/
def Dispatch.bind {α β : Type} (x : Dispatch α) (f : α → Dispatch β) : Dispatch β :=
  match x.outcome with
  | .error e => ⟨x.events, .error e⟩
  | .ok a => ⟨x.events ++ (f a).events, (f a).outcome⟩

instance : Monad Dispatch where
  pure a := ⟨[], .ok a⟩
  bind := Dispatch.bind

/-- The statement `throw e`. -/
def Dispatch.throw {α : Type} (e : JsError) : Dispatch α := ⟨[], .error e⟩

/-- The block `try { x } catch (error) { handler error }`. -/
def Dispatch.tryCatch {α : Type} (x : Dispatch α) (handler : JsError → Dispatch α) :
    Dispatch α :=
  match x.outcome with
  | .ok a => ⟨x.events, .ok a⟩
  | .error e => ⟨x.events ++ (handler e).events, (handler e).outcome⟩

/-- The call `cliInstance.config({ stage, parentComponent })`. -/
def cliConfig (stage : Option String) (parentComponent : String) : Dispatch Unit :=
  ⟨[.cliConfig stage parentComponent], .ok ()⟩

/-- The expression `new Component(args)`. -/
def ComponentClass.new (C : ComponentClass) (args : ComponentArgs) : Dispatch Unit :=
  ⟨[.construct C.name args], C.construct args⟩

/-- The call `component()` (`none`) or `component[method]()`: calling a method that the
component does not have throws a `TypeError` and invokes nothing. -/
def ComponentClass.invoke (C : ComponentClass) (args : ComponentArgs)
    (method : Option String) : Dispatch Outputs :=
  match method with
  | none => ⟨[.invoke C.name args none], (C.call args none).map .value⟩
  | some m =>
    if C.hasMethod m then ⟨[.invoke C.name args (some m)], (C.call args (some m)).map .value⟩
    else Dispatch.throw ⟨"component[config.method] is not a function"⟩

/-- Modelled from the spec: `errorHandler` of the utils package, which is not under src/.
The error is "passed to a centralized error reporter that also receives the originating
component\x27s name for context, then the error is returned (not rethrown) as the outcome
of the run". -/
def errorHandler (error : JsError) (name : String) : Dispatch Outputs :=
  ⟨[.errorHandler error name], .ok (.reported error)⟩

/-- The parsed declarative file: the `name` of the root component and the table
`components` of its component instances, keyed `Type::name`. -/
structure FileContent where
  name : String
  components : Option JsFields

/-- What the dispatcher loads from outside: the class of the declarative root component,
`coreComponentExists` and `loadComponent` of the utils package (not under src/). -/
structure Registry where
  componentDeclarative : ComponentClass
  coreComponentExists : String → Bool
  loadComponent : String → ComponentClass

/-- One turn of the loop of `runDeclarative` over the keys of the table: the pair
`(instanceName, componentName)` is overwritten when the second piece of the key is the
requested instance. -/
def findInstanceStep (requested : Option String) (found : Option (String × String))
    (key : String) : Option (String × String) :=
  match requested, (split key)[0]?, (split key)[1]? with
  | some r, some c, some i => if r = i then some (i, c) else found
  | _, _, _ => found

/-- The loop `for (const instance in fileContent.components || {})` of `runDeclarative`. -/
def findInstance (requested : Option String) (components : Option JsFields) :
    Option (String × String) :=
  (keys (components.getD .nil)).foldl (findInstanceStep requested) none

/-- The function `runDeclarative(filePath, config)`, given the content read from the file.
Modelled from the spec: the `Context`, which is not under src/, carries the stage name of
the configuration. -/
def runDeclarative (registry : Registry) (fileContent : FileContent) (config : Config) :
    Dispatch Outputs :=
  if !(isSet config.instanceName) && !(isSet config.methodName) then do
    cliConfig config.stage fileContent.name
    Dispatch.tryCatch
      (do
        registry.componentDeclarative.new ⟨some fileContent.name, none⟩
        registry.componentDeclarative.invoke ⟨some fileContent.name, none⟩ none)
      (fun error => errorHandler error fileContent.name)
  else if !(isSet config.instanceName) && isSet config.methodName then do
    cliConfig config.stage fileContent.name
    registry.componentDeclarative.new ⟨some fileContent.name, none⟩
    Dispatch.tryCatch
      (registry.componentDeclarative.invoke ⟨some fileContent.name, none⟩ config.methodName)
      (fun error => errorHandler error fileContent.name)
  else if isSet config.instanceName && isSet config.methodName then
    match findInstance config.instanceName fileContent.components with
    | none =>
      Dispatch.throw ⟨"Component instance \x22" ++ config.instanceName.getD "" ++
        "\x22 does not exist in your project."⟩
    | some (instanceName, componentName) =>
      if !(isSet (some instanceName)) then
        Dispatch.throw ⟨"Component instance \x22" ++ config.instanceName.getD "" ++
          "\x22 does not exist in your project."⟩
      else if !(registry.coreComponentExists componentName) then
        Dispatch.throw ⟨"Component \x22" ++ componentName ++ "\x22 is not a valid Component."⟩
      else do
        cliConfig config.stage fileContent.name
        let id := config.stage.getD "undefined" ++ "." ++ fileContent.name ++ "." ++ instanceName
        (registry.loadComponent componentName).new ⟨none, some id⟩
        Dispatch.tryCatch
          ((registry.loadComponent componentName).invoke ⟨none, some id⟩ config.methodName)
          (fun error => errorHandler error componentName)
  else pure (.value .undefined)

/-- The function `runProgrammatic(filePath, config)`, given the class exported by the
file. -/
def runProgrammatic (Component : ComponentClass) (config : Config) : Dispatch Outputs := do
  cliConfig config.stage Component.name
  Component.new ⟨none, none⟩
  Dispatch.tryCatch
    (if isSet config.methodName && !(Component.hasMethod (config.methodName.getD "")) then
      Dispatch.throw ⟨"Component \x22" ++ Component.name ++ "\x22 does not have a \x22" ++
        config.methodName.getD "" ++ "\x22 method"⟩
    else if !(isSet config.methodName) then Component.invoke ⟨none, none⟩ none
    else Component.invoke ⟨none, none⟩ config.methodName)
    (fun error => errorHandler error Component.name)

/-- The files of a project directory, as `run` sees them: the parsed `.env.<stage>` and
`.env` files, the class exported by `serverless.js`, the content of `serverless.yml`,
`serverless.yaml` and `serverless.json` (each `none` when the file does not exist), and the
working directory. -/
structure Project where
  cwd : String
  stageEnv : String → Option JsFields
  defaultEnv : Option JsFields
  serverlessJs : Option ComponentClass
  serverlessYml : Option FileContent
  serverlessYaml : Option FileContent
  serverlessJson : Option FileContent

/-- The configuration defaults of `run`, followed by the environment credentials. -/
def runConfig (project : Project) (config : Config) : Config :=
  let root := if isSet config.root then config.root.getD "" else project.cwd
  let stage := if isSet config.stage then config.stage.getD "" else "dev"
  let envVars :=
    match project.stageEnv stage with
    | some parsed => parsed
    | none => project.defaultEnv.getD .nil
  { root := some root
    stage := some stage
    instanceName := if isSet config.instanceName then config.instanceName else none
    methodName := if isSet config.methodName then config.methodName else none
    credentials := addEnvVarsToCredentials envVars config.credentials }

/-- The function `run(config)`: the programmatic file is preferred, then the declarative
files in the order yml, yaml, json; an error thrown by the chosen runner is handed to the
error handler.  The deferred closing of the CLI is not modelled. -/
def run (registry : Registry) (project : Project) (config : Config) : Dispatch Outputs :=
  let config := runConfig project config
  Dispatch.tryCatch
    (match project.serverlessJs with
     | some Component => runProgrammatic Component config
     | none =>
       match project.serverlessYml with
       | some fileContent => runDeclarative registry fileContent config
       | none =>
         match project.serverlessYaml with
         | some fileContent => runDeclarative registry fileContent config
         | none =>
           match project.serverlessJson with
           | some fileContent => runDeclarative registry fileContent config
           | none =>
             Dispatch.throw ⟨"No Serverless file (serverless.js, serverless.yml, " ++
               "serverless.yaml or serverless.json) found in " ++ config.root.getD ""⟩)
    (fun error => errorHandler error "Serverless Components")

/-- Some component class whose constructor succeeds, which has the methods `deploy` and
`remove`, and whose calls resolve to `done`. -/
def stubClass (name : String) : ComponentClass where
  name := name
  construct := fun _ => .ok ()
  hasMethod := fun m => m = "deploy" || m = "remove"
  call := fun _ _ => .ok (.str "done")

/-- Some registry in which `AwsIamRole` is the only child component type. -/
def stubRegistry : Registry where
  componentDeclarative := stubClass "ComponentDeclarative"
  coreComponentExists := fun c => c = "AwsIamRole"
  loadComponent := fun c => stubClass c

/-- A declarative file `my-app` with one role `myRole` and one instance `myThing` of a
type that is not a component. -/
def myAppFile : FileContent where
  name := "my-app"
  components := some (.cons "AwsIamRole::myRole" (.obj 1 .nil)
    (.cons "Nope::myThing" (.obj 2 .nil) .nil))

/-- A project directory that only holds `serverless.yml`. -/
def myAppProject : Project where
  cwd := "/app"
  stageEnv := fun _ => none
  defaultEnv := none
  serverlessJs := none
  serverlessYml := some myAppFile
  serverlessYaml := none
  serverlessJson := none

/-- A request for the instance `myRole` without a method name. -/
def instanceOnlyConfig : Config where
  root := none
  stage := none
  instanceName := some "myRole"
  methodName := none
  credentials := []

/-- A request for the method `deploy` of the instance `name`, at stage `dev`. -/
def deployConfig (name : String) : Config where
  root := none
  stage := some "dev"
  instanceName := some name
  methodName := some "deploy"
  credentials := []

/-- A request for the method `info`, which the stub components do not have, of the
instance `myRole`, at stage `dev`. -/
def infoConfig : Config where
  root := none
  stage := some "dev"
  instanceName := some "myRole"
  methodName := some "info"
  credentials := []

/-! ## Concrete instances, previous instances and providers -/

/-- An instance named `abc`, without a service, with the policy `p` at reference 1. -/
def roleWithoutService : AwsIamRole Resolvable where
  instanceId := "id"
  service := .plain .undefined
  policy := .plain ⟨1, .cons "arn" (.str "p") .nil⟩
  roleName := .plain "abc"
  arn := .undefined

/-- A previous instance `{ roleName: abc, policy: { arn: p } }`, without a `service`
property, whose policy lives at reference 2. -/
def prevWithoutService : JsFields :=
  .cons "roleName" (.str "abc") (.cons "policy" (.obj 2 (.cons "arn" (.str "p") .nil)) .nil)

/-- A previous instance with the three properties and extra ones (`arn`, `instanceId`). -/
def prevWithExtras : JsFields :=
  .cons "arn" (.str "arn:aws:iam::XXXXX:role/abc")
    (.cons "policy" (.obj 2 (.cons "arn" (.str "p") .nil))
      (.cons "instanceId" (.str "old")
        (.cons "service" .undefined
          (.cons "roleName" (.str "abc") .nil))))

/-- Some IAM client that accepts every request; `createRole` answers with a role whose
`Arn` is `arn:aws:iam::XXXXX:role/test-role`. -/
def acceptingIAM : IAM := fun r =>
  match r with
  | .createRole _ _ _ =>
    .ok (.obj 9 (.cons "Role" (.obj 10
      (.cons "Arn" (.str "arn:aws:iam::XXXXX:role/test-role") .nil)) .nil))
  | _ => .ok (.obj 11 .nil)

/-- The instance of the first test: role `abc` for `lambda.amazonaws.com`, no policy
supplied. -/
def lambdaRole : AwsIamRole Id :=
  resolveComponentEvaluables
    (construct ⟨.plain (some "abc"), .plain (.str "lambda.amazonaws.com"), .plain none⟩ "id" 5)

/-- The policy swap of the update path: detach the previous policy, attach the new one. -/
def swapPolicy (iam : IAM) (this : AwsIamRole Id) (prev : JsFields) : Async Unit :=
  detachRolePolicy iam (prev.get "roleName") (prev.get "policy") >>= fun _ =>
    attachRolePolicy iam (.str this.roleName) this.policy.toVal

/-- A role whose service is a list of two principals, held at reference 1. -/
def edgeRole : AwsIamRole Id where
  instanceId := "id"
  service := .arr 1 (.cons (.str "lambda.amazonaws.com")
    (.cons (.str "edgelambda.amazonaws.com") .nil))
  policy := ⟨3, .cons "arn" (.str "p") .nil⟩
  roleName := "abc"
  arn := .str "arn:aws:iam::XXXXX:role/abc"

/-- A previous instance of `edgeRole`: same name, an equal list of principals (held at
reference 2) and an equal policy (held at reference 4). -/
def prevEdgeRole : JsFields :=
  .cons "roleName" (.str "abc")
    (.cons "service" (.arr 2 (.cons (.str "lambda.amazonaws.com")
        (.cons (.str "edgelambda.amazonaws.com") .nil)))
      (.cons "policy" (.obj 4 (.cons "arn" (.str "p") .nil)) .nil))

/-- The role of the update tests: `abc` for `apig.amazonaws.com`, no policy supplied. -/
def apigRole : AwsIamRole Id :=
  resolveComponentEvaluables
    (construct ⟨.plain (some "abc"), .plain (.str "apig.amazonaws.com"), .plain none⟩ "id" 5)

/-- A previous instance named `abc` for `lambda.amazonaws.com` with the policy
`oldPolicy`. -/
def prevLambdaOldPolicy : JsFields :=
  .cons "roleName" (.str "abc")
    (.cons "service" (.str "lambda.amazonaws.com")
      (.cons "policy" (.obj 2 (.cons "arn" (.str "arn:aws:iam::aws:policy/oldPolicy") .nil))
        .nil))

/-- The message of the tolerated detach failure: the policy no longer exists. -/
def policyNotFoundMessage (this : AwsIamRole Id) : String :=
  "Policy " ++ toStr (this.policy.fields.get "arn") ++ " was not found."

/-- Some IAM client for which the role is already gone when it is deleted. -/
def roleGoneIAM : IAM := fun r =>
  match r with
  | .deleteRole _ => .error ⟨"NoSuchEntity: Role not found for abc"⟩
  | _ => .ok (.obj 11 .nil)

/-- Some IAM client that reports the role gone already when the policy is detached. -/
def roleGoneOnDetachIAM : IAM := fun r =>
  match r with
  | .detachRolePolicy _ _ => .error ⟨"NoSuchEntity: Role not found for abc"⟩
  | _ => .ok (.obj 11 .nil)

/-- Some IAM client for which the attached policy no longer exists. -/
def policyGoneIAM : IAM := fun r =>
  match r with
  | .detachRolePolicy _ _ =>
    .error ⟨"Policy arn:aws:iam::aws:policy/AdministratorAccess was not found."⟩
  | _ => .ok (.obj 11 .nil)

/-- Explicit credentials with an empty access key id. -/
def emptyKeyCredentials : Credentials :=
  [("aws", .cons "accessKeyId" (.str "") .nil)]

/-- Explicit credentials with an access key id. -/
def explicitKeyCredentials : Credentials :=
  [("aws", .cons "accessKeyId" (.str "mine") .nil)]

/-- An environment that sets the access key id and the session token. -/
def keyAndTokenEnv : JsFields :=
  .cons "AWS_ACCESS_KEY_ID" (.str "AKIA") (.cons "AWS_SESSION_TOKEN" (.str "token") .nil)

/-- A previous instance equal to `lambdaRole` on the compared properties, carrying its
`arn` as well. -/
def prevLambdaSame : JsFields :=
  .cons "roleName" (.str "abc")
    (.cons "service" (.str "lambda.amazonaws.com")
      (.cons "policy"
        (.obj 2 (.cons "arn" (.str "arn:aws:iam::aws:policy/AdministratorAccess") .nil))
        (.cons "arn" (.str "arn:aws:iam::XXXXX:role/test-role") .nil)))

/-- The role of the renaming test: `new-role-name`, neither service nor policy supplied. -/
def renamedRole : AwsIamRole Id :=
  resolveComponentEvaluables
    (construct ⟨.plain (some "new-role-name"), .plain .undefined, .plain none⟩ "id" 5)

/-- A previous instance named `old-role-name` with the default policy. -/
def prevOldName : JsFields :=
  .cons "roleName" (.str "old-role-name")
    (.cons "service" .undefined
      (.cons "policy"
        (.obj 2 (.cons "arn" (.str "arn:aws:iam::aws:policy/AdministratorAccess") .nil))
        .nil))

/-! ## Basic facts on values -/

theorem strictEq_str_right (v : JsVal) (s : String) :
    strictEq v (.str s) = true ↔ v = .str s := by
  cases v <;> simp [strictEq]

theorem strictEq_str_left (v : JsVal) (s : String) :
    strictEq (.str s) v = true ↔ v = .str s := by
  cases v with
  | str t =>
    simp only [strictEq, beq_iff_eq, JsVal.str.injEq]
    exact eq_comm
  | _ => simp [strictEq]

theorem strictEq_str_self (s : String) : strictEq (.str s) (.str s) = true := by
  simp [strictEq]

theorem equals_str_self (s : String) : equals (.str s) (.str s) = true := by
  simp [equals]

theorem equals_str_left (v : JsVal) (s : String) :
    equals (.str s) v = true ↔ v = .str s := by
  simp [equals]

theorem shouldDeployInputs_get_roleName (this : AwsIamRole Resolvable) :
    (shouldDeployInputs this).get "roleName" = .str (resolve this.roleName) := by
  simp [shouldDeployInputs, JsFields.get, JsFields.lookup]

theorem keys_shouldDeployInputs (this : AwsIamRole Resolvable) :
    keys (shouldDeployInputs this) = ["roleName", "service", "policy"] := by
  simp [shouldDeployInputs, keys]

/-! ## The diff engine -/

/-- C1: when a previous instance exists and its `roleName` differs from the resolved
`roleName` of the new instance, `shouldDeploy` returns `replace`, whatever the services
and the policies are. -/
theorem shouldDeploy_replace_of_roleName_differs (this : AwsIamRole Resolvable)
    (prev : JsFields) (h : prev.get "roleName" ≠ .str (resolve this.roleName)) :
    shouldDeploy this (some prev) = .str "replace" := by
  have hne : strictEq (prev.get "roleName") (.str (resolve this.roleName)) = false := by
    rw [Bool.eq_false_iff]
    intro h1
    exact h ((strictEq_str_right _ _).1 h1)
  unfold shouldDeploy
  simp only [shouldDeployInputs_get_roleName, hne]
  simp

/-- Witness of C1: the previous role is named `abc`, the new one `zxc`, everything else is
the same. -/
theorem shouldDeploy_replace_of_roleName_differs_witness :
    prevWithExtras.get "roleName" ≠
        .str (resolve ({ roleWithoutService with roleName := .plain "zxc" } :
          AwsIamRole Resolvable).roleName) ∧
      shouldDeploy { roleWithoutService with roleName := .plain "zxc" } (some prevWithExtras)
        = .str "replace" :=
  ⟨by decide, shouldDeploy_replace_of_roleName_differs _ _ (by decide)⟩

/-- C2, as stated, fails: the previous instance has the same `roleName` and an equal
policy, and its `service` reads `undefined` like the resolved service of the new instance,
but it has no `service` property, so the projection has two keys against three and
`shouldDeploy` returns `deploy`. -/
theorem shouldDeploy_noop_counterexample :
    equals (.str (resolve roleWithoutService.roleName)) (prevWithoutService.get "roleName") = true ∧
      equals (resolve roleWithoutService.service) (prevWithoutService.get "service") = true ∧
      equals (resolve roleWithoutService.policy).toVal (prevWithoutService.get "policy") = true ∧
      shouldDeploy roleWithoutService (some prevWithoutService) = .str "deploy" := by
  decide

/-- C2, amended: when the previous instance has the properties `roleName`, `service` and
`policy` (a property may hold `undefined`), each deeply equal to the resolved value of the
new instance, `shouldDeploy` returns `undefined`, whatever other properties that previous
snapshot carries. -/
theorem shouldDeploy_noop_of_equal_properties (this : AwsIamRole Resolvable)
    (prev : JsFields) (vr vs vp : JsVal)
    (hr : prev.lookup "roleName" = some vr)
    (hre : equals (.str (resolve this.roleName)) vr = true)
    (hs : prev.lookup "service" = some vs)
    (hse : equals (resolve this.service) vs = true)
    (hp : prev.lookup "policy" = some vp)
    (hpe : equals (resolve this.policy).toVal vp = true) :
    shouldDeploy this (some prev) = .undefined := by
  have hvr : vr = .str (resolve this.roleName) := (equals_str_left _ _).1 hre
  subst hvr
  have hget : prev.get "roleName" = .str (resolve this.roleName) := by
    simp [JsFields.get, hr]
  have hpick : pick ["roleName", "service", "policy"] prev =
      .cons "roleName" (.str (resolve this.roleName))
        (.cons "service" vs (.cons "policy" vp .nil)) := by
    simp [pick, hr, hs, hp]
  have heq : equalsObjects (shouldDeployInputs this)
      (pick ["roleName", "service", "policy"] prev) = true := by
    rw [hpick]
    simp [equalsObjects, shouldDeployInputs, equalsFields, JsFields.length,
      JsFields.lookup, hse, hpe, equals_str_self]
  unfold shouldDeploy
  simp only [shouldDeployInputs_get_roleName, keys_shouldDeployInputs, hget, heq]
  simp [strictEq_str_self]

/-- Witness of C2 (amended): the previous instance carries `arn` and `instanceId` besides
the three compared properties, in another order. -/
theorem shouldDeploy_noop_of_equal_properties_witness :
    shouldDeploy roleWithoutService (some prevWithExtras) = .undefined :=
  shouldDeploy_noop_of_equal_properties roleWithoutService prevWithExtras
    (.str "abc") .undefined (.obj 2 (.cons "arn" (.str "p") .nil))
    (by decide) (by decide) (by decide) (by decide) (by decide) (by decide)

/-- C3: `shouldDeploy` returns `deploy` exactly when there is no previous instance, or
there is one with the same `roleName` and the resolved inputs `{roleName, service, policy}`
are not deeply equal to the projection of the previous instance onto these keys. -/
theorem shouldDeploy_deploy_iff (this : AwsIamRole Resolvable)
    (prevInstance : Option JsFields) :
    shouldDeploy this prevInstance = .str "deploy" ↔
      prevInstance = none ∨
        ∃ prev, prevInstance = some prev ∧
          prev.get "roleName" = .str (resolve this.roleName) ∧
          equalsObjects (shouldDeployInputs this)
            (pick ["roleName", "service", "policy"] prev) = false := by
  cases prevInstance with
  | none => simp [shouldDeploy]
  | some prev =>
    unfold shouldDeploy
    simp only [shouldDeployInputs_get_roleName, keys_shouldDeployInputs]
    by_cases h1 : strictEq (prev.get "roleName") (.str (resolve this.roleName)) = true
    · have h2 := (strictEq_str_right _ _).1 h1
      cases h3 : equalsObjects (shouldDeployInputs this)
          (pick ["roleName", "service", "policy"] prev) <;> simp [h2, h3, strictEq_str_self]
    · have h2 : prev.get "roleName" ≠ .str (resolve this.roleName) :=
        fun h => h1 ((strictEq_str_right _ _).2 h)
      simp [h1, h2]

/-! ## Facts on awaited computations -/

theorem getProp_of_not_isNil (v : JsVal) (key : String) (h : v.isNil = false) :
    getProp v key = ⟨[], .ok (readProp v key)⟩ := by
  cases v <;> first | rfl | simp [JsVal.isNil] at h

theorem getProp_toVal (o : JsObj) (key : String) :
    getProp o.toVal key = ⟨[], .ok (o.fields.get key)⟩ := rfl

theorem getProp_trace (v : JsVal) (key : String) : (getProp v key).trace = [] := by
  cases v <;> rfl

theorem bind_eq (α β : Type) (x : Async α) (f : α → Async β) :
    x >>= f = Async.bind x f := rfl

theorem pure_eq (α : Type) (a : α) : (pure a : Async α) = ⟨[], .ok a⟩ := rfl

theorem Async.bind_ok {α β : Type} (t : List Effect) (a : α) (f : α → Async β) :
    Async.bind ⟨t, .ok a⟩ f = ⟨t ++ (f a).trace, (f a).outcome⟩ := rfl

theorem Async.bind_error {α β : Type} (t : List Effect) (e : JsError) (f : α → Async β) :
    Async.bind ⟨t, .error e⟩ f = ⟨t, .error e⟩ := rfl

theorem Async.tryCatch_ok {α : Type} (t : List Effect) (a : α) (h : JsError → Async α) :
    Async.tryCatch ⟨t, .ok a⟩ h = ⟨t, .ok a⟩ := rfl

theorem Async.tryCatch_error {α : Type} (t : List Effect) (e : JsError)
    (h : JsError → Async α) :
    Async.tryCatch ⟨t, .error e⟩ h = ⟨t ++ (h e).trace, (h e).outcome⟩ := rfl

theorem getProp_cases (v : JsVal) (key : String) :
    getProp v key = ⟨[], .ok (readProp v key)⟩ ∨ ∃ e, getProp v key = ⟨[], .error e⟩ := by
  cases v
  case undefined => exact Or.inr ⟨_, rfl⟩
  case null => exact Or.inr ⟨_, rfl⟩
  all_goals exact Or.inl rfl

theorem getProp_of_isNil (v : JsVal) (key : String) (h : v.isNil = true) :
    ∃ e, getProp v key = ⟨[], .error e⟩ := by
  cases v
  case undefined => exact ⟨_, rfl⟩
  case null => exact ⟨_, rfl⟩
  all_goals simp [JsVal.isNil] at h

theorem attachRolePolicy_ok (iam : IAM) (roleName policy res : JsVal)
    (hp : policy.isNil = false)
    (h : iam (.attachRolePolicy roleName (readProp policy "arn")) = .ok res) :
    attachRolePolicy iam roleName policy =
      ⟨[.call (.attachRolePolicy roleName (readProp policy "arn")), .sleep 15000], .ok ()⟩ := by
  simp [attachRolePolicy, getProp_of_not_isNil _ _ hp, bind_eq, Async.bind_ok,
    Async.bind_error, IAM.send, sleep, h]

theorem attachRolePolicy_error (iam : IAM) (roleName policy : JsVal) (e : JsError)
    (hp : policy.isNil = false)
    (h : iam (.attachRolePolicy roleName (readProp policy "arn")) = .error e) :
    attachRolePolicy iam roleName policy =
      ⟨[.call (.attachRolePolicy roleName (readProp policy "arn"))], .error e⟩ := by
  simp [attachRolePolicy, getProp_of_not_isNil _ _ hp, bind_eq, Async.bind_ok,
    Async.bind_error, IAM.send, sleep, h]

theorem detachRolePolicy_ok (iam : IAM) (roleName policy res : JsVal)
    (hp : policy.isNil = false)
    (h : iam (.detachRolePolicy roleName (readProp policy "arn")) = .ok res) :
    detachRolePolicy iam roleName policy =
      ⟨[.call (.detachRolePolicy roleName (readProp policy "arn"))], .ok ()⟩ := by
  simp [detachRolePolicy, getProp_of_not_isNil _ _ hp, bind_eq, pure_eq, Async.bind_ok,
    Async.bind_error, IAM.send, h]

theorem detachRolePolicy_error (iam : IAM) (roleName policy : JsVal) (e : JsError)
    (hp : policy.isNil = false)
    (h : iam (.detachRolePolicy roleName (readProp policy "arn")) = .error e) :
    detachRolePolicy iam roleName policy =
      ⟨[.call (.detachRolePolicy roleName (readProp policy "arn"))], .error e⟩ := by
  simp [detachRolePolicy, getProp_of_not_isNil _ _ hp, bind_eq, pure_eq, Async.bind_ok,
    Async.bind_error, IAM.send, h]

theorem detachRolePolicy_nil (iam : IAM) (roleName policy : JsVal)
    (hp : policy.isNil = true) :
    ∃ e, detachRolePolicy iam roleName policy = ⟨[], .error e⟩ := by
  obtain ⟨e, he⟩ := getProp_of_isNil policy "arn" hp
  exact ⟨e, by simp [detachRolePolicy, he, bind_eq, Async.bind_error]⟩

theorem updateAssumeRolePolicy_ok (iam : IAM) (roleName service res : JsVal)
    (h : iam (.updateAssumeRolePolicy roleName
      (JSON.stringify (assumeRolePolicyDocument service))) = .ok res) :
    updateAssumeRolePolicy iam roleName service =
      ⟨[.call (.updateAssumeRolePolicy roleName
        (JSON.stringify (assumeRolePolicyDocument service)))], .ok ()⟩ := by
  simp [updateAssumeRolePolicy, bind_eq, pure_eq, Async.bind_ok, IAM.send, h]

theorem updateAssumeRolePolicy_error (iam : IAM) (roleName service : JsVal) (e : JsError)
    (h : iam (.updateAssumeRolePolicy roleName
      (JSON.stringify (assumeRolePolicyDocument service))) = .error e) :
    updateAssumeRolePolicy iam roleName service =
      ⟨[.call (.updateAssumeRolePolicy roleName
        (JSON.stringify (assumeRolePolicyDocument service)))], .error e⟩ := by
  simp [updateAssumeRolePolicy, bind_eq, pure_eq, Async.bind_error, IAM.send, h]

theorem toVal_isNil (o : JsObj) : o.toVal.isNil = false := rfl

theorem readProp_toVal (o : JsObj) (key : String) :
    readProp o.toVal key = o.fields.get key := rfl

/-! ## The lifecycle driver: create path -/

/-- The text of the trust document: the fixed members around the serialized service. -/
theorem stringifyVal_trust_document_of_service (service : JsVal) (t : String)
    (h : stringifyVal service = some t) :
    stringifyVal (assumeRolePolicyDocument service) =
      some ("\x7b\x22Version\x22:\x222012-10-17\x22,\x22Statement\x22:\x7b\x22Effect\x22:" ++
        "\x22Allow\x22,\x22Principal\x22:\x7b\x22Service\x22:" ++ t ++
        "\x7d,\x22Action\x22:\x22sts:AssumeRole\x22\x7d\x7d") := by
  have q1 : jsonQuote "Version" = "\x22Version\x22" := by decide
  have q2 : jsonQuote "2012-10-17" = "\x222012-10-17\x22" := by decide
  have q3 : jsonQuote "Statement" = "\x22Statement\x22" := by decide
  have q4 : jsonQuote "Effect" = "\x22Effect\x22" := by decide
  have q5 : jsonQuote "Allow" = "\x22Allow\x22" := by decide
  have q6 : jsonQuote "Principal" = "\x22Principal\x22" := by decide
  have q7 : jsonQuote "Service" = "\x22Service\x22" := by decide
  have q8 : jsonQuote "Action" = "\x22Action\x22" := by decide
  have q9 : jsonQuote "sts:AssumeRole" = "\x22sts:AssumeRole\x22" := by decide
  have p1 : "\x7b\x22Version\x22:\x222012-10-17\x22,\x22Statement\x22:\x7b\x22Effect\x22:" =
      "\x7b" ++ "\x22Version\x22" ++ ":" ++ "\x222012-10-17\x22" ++ "," ++ "\x22Statement\x22" ++
        ":" ++ "\x7b" ++ "\x22Effect\x22" ++ ":" := by decide
  have p2 : "\x22Allow\x22,\x22Principal\x22:\x7b\x22Service\x22:" =
      "\x22Allow\x22" ++ "," ++ "\x22Principal\x22" ++ ":" ++ "\x7b" ++ "\x22Service\x22" ++ ":" := by
    decide
  have p3 : "\x7d,\x22Action\x22:\x22sts:AssumeRole\x22\x7d\x7d" =
      "\x7d" ++ "," ++ "\x22Action\x22" ++ ":" ++ "\x22sts:AssumeRole\x22" ++ "\x7d" ++ "\x7d" := by
    decide
  simp only [assumeRolePolicyDocument, stringifyVal, stringifyFields, h,
    q1, q2, q3, q4, q5, q6, q7, q8, q9, String.intercalate, String.intercalate.go]
  rw [p1, p2, p3]
  simp only [String.append_assoc]

/-- The text of the trust document when the service has no JSON text (`undefined`): the
`Principal` is the empty object. -/
theorem stringifyVal_trust_document_of_no_service (service : JsVal)
    (h : stringifyVal service = none) :
    stringifyVal (assumeRolePolicyDocument service) =
      some ("\x7b\x22Version\x22:\x222012-10-17\x22,\x22Statement\x22:\x7b\x22Effect\x22:" ++
        "\x22Allow\x22,\x22Principal\x22:\x7b\x7d,\x22Action\x22:\x22sts:AssumeRole\x22\x7d\x7d") := by
  simp only [assumeRolePolicyDocument, stringifyVal, stringifyFields, h]
  decide

/-- C4: on the create path (no previous instance, or a previous instance whose `roleName`
differs), whatever the provider answers the effects issued are an initial part of
`createRole`, `attachRolePolicy`, `sleep(15000)` (so no `updateAssumeRolePolicy` and no
`detachRolePolicy` request is issued); when the two requests are answered, the effects are
exactly these three, with `RoleName = roleName`, `Path = /`, the serialized trust document
for `service`, and `PolicyArn = policy.arn`; the `arn` of the instance is then the `Arn` of
the `createRole` response; the serialized trust document is the JSON text with the members
`Version`, `Statement`, `Effect`, `Principal`, `Action` in this order, whose
`Principal.Service` is the serialized service (an empty `Principal` when the service is
`undefined`); and `policy.arn` is the AdministratorAccess arn when no policy was supplied to
`construct`. -/
theorem deploy_create_path (iam : IAM) (this : AwsIamRole Id)
    (prevInstance : Option JsFields)
    (hcreate : prevInstance = none ∨
      ∃ prev, prevInstance = some prev ∧ prev.get "roleName" ≠ .str this.roleName) :
    ((deploy iam this prevInstance).trace <+:
        [.call (.createRole (.str this.roleName) (.str "/")
            (JSON.stringify (assumeRolePolicyDocument this.service))),
         .call (.attachRolePolicy (.str this.roleName) (this.policy.fields.get "arn")),
         .sleep 15000]) ∧
      (∀ roleRes attachRes,
        iam (.createRole (.str this.roleName) (.str "/")
            (JSON.stringify (assumeRolePolicyDocument this.service))) = .ok roleRes →
        iam (.attachRolePolicy (.str this.roleName) (this.policy.fields.get "arn"))
            = .ok attachRes →
        (deploy iam this prevInstance).trace =
            [.call (.createRole (.str this.roleName) (.str "/")
                (JSON.stringify (assumeRolePolicyDocument this.service))),
             .call (.attachRolePolicy (.str this.roleName) (this.policy.fields.get "arn")),
             .sleep 15000] ∧
          (roleRes.isNil = false → (readProp roleRes "Role").isNil = false →
            (deploy iam this prevInstance).outcome =
              .ok { this with arn := readProp (readProp roleRes "Role") "Arn" })) ∧
      (readProp (readProp (readProp (assumeRolePolicyDocument this.service) "Statement")
          "Principal") "Service" = this.service) ∧
      (∀ t, stringifyVal this.service = some t →
        JSON.stringify (assumeRolePolicyDocument this.service) =
          .str ("\x7b\x22Version\x22:\x222012-10-17\x22,\x22Statement\x22:\x7b\x22Effect\x22:" ++
            "\x22Allow\x22,\x22Principal\x22:\x7b\x22Service\x22:" ++ t ++
            "\x7d,\x22Action\x22:\x22sts:AssumeRole\x22\x7d\x7d")) ∧
      (stringifyVal this.service = none →
        JSON.stringify (assumeRolePolicyDocument this.service) =
          .str ("\x7b\x22Version\x22:\x222012-10-17\x22,\x22Statement\x22:\x7b\x22Effect\x22:" ++
            "\x22Allow\x22,\x22Principal\x22:\x7b\x7d,\x22Action\x22:\x22sts:AssumeRole\x22\x7d\x7d")) ∧
      (∀ (inputs : Inputs) (instanceId : String) (fresh : Nat),
        resolve inputs.policy = none →
        (resolveComponentEvaluables (construct inputs instanceId fresh)).policy.fields.get "arn"
          = .str "arn:aws:iam::aws:policy/AdministratorAccess") := by
  have hdeploy : deploy iam this prevInstance =
      (createRole iam (.str this.roleName) this.service this.policy.toVal >>= fun arn =>
        pure { this with arn := arn }) := by
    rcases hcreate with h | ⟨prev, h, hne⟩
    · subst h; rfl
    · subst h
      have hs : strictEq (.str this.roleName) (prev.get "roleName") = false := by
        rw [Bool.eq_false_iff]
        intro h1
        exact hne ((strictEq_str_left _ _).1 h1)
      simp [deploy, hs]
  rw [hdeploy]
  refine ⟨?_, ?_, rfl,
    fun t h => by simp only [JSON.stringify, stringifyVal_trust_document_of_service _ t h],
    fun h => by simp only [JSON.stringify, stringifyVal_trust_document_of_no_service _ h],
    ?_⟩
  · cases h1 : iam (.createRole (.str this.roleName) (.str "/")
        (JSON.stringify (assumeRolePolicyDocument this.service))) with
    | error e =>
      simp [createRole, bind_eq, pure_eq, Async.bind_error, IAM.send, h1, readProp_toVal]
    | ok roleRes =>
      cases h2 : iam (.attachRolePolicy (.str this.roleName)
          (readProp this.policy.toVal "arn")) with
      | error e =>
        simp [createRole, attachRolePolicy_error _ _ _ _ (toVal_isNil _) h2, bind_eq,
          pure_eq, Async.bind_ok, Async.bind_error, IAM.send, h1, readProp_toVal]
      | ok attachRes =>
        rcases getProp_cases roleRes "Role" with h3 | ⟨e, h3⟩
        · rcases getProp_cases (readProp roleRes "Role") "Arn" with h4 | ⟨e, h4⟩ <;>
            simp [createRole, attachRolePolicy_ok _ _ _ _ (toVal_isNil _) h2, bind_eq,
              pure_eq, Async.bind_ok, Async.bind_error, IAM.send, h1, h3, h4, readProp_toVal]
        · simp [createRole, attachRolePolicy_ok _ _ _ _ (toVal_isNil _) h2, bind_eq,
            pure_eq, Async.bind_ok, Async.bind_error, IAM.send, h1, h3, readProp_toVal]
  · intro roleRes attachRes h1 h2
    rw [← readProp_toVal] at h2
    constructor
    · rcases getProp_cases roleRes "Role" with h3 | ⟨e, h3⟩
      · rcases getProp_cases (readProp roleRes "Role") "Arn" with h4 | ⟨e, h4⟩ <;>
          simp [createRole, attachRolePolicy_ok _ _ _ _ (toVal_isNil _) h2, bind_eq,
            pure_eq, Async.bind_ok, Async.bind_error, IAM.send, h1, h3, h4, readProp_toVal]
      · simp [createRole, attachRolePolicy_ok _ _ _ _ (toVal_isNil _) h2, bind_eq,
          pure_eq, Async.bind_ok, Async.bind_error, IAM.send, h1, h3, readProp_toVal]
    · intro hn1 hn2
      simp [createRole, attachRolePolicy_ok _ _ _ _ (toVal_isNil _) h2, bind_eq,
        pure_eq, Async.bind_ok, Async.bind_error, IAM.send, h1,
        getProp_of_not_isNil _ _ hn1, getProp_of_not_isNil _ _ hn2]
  · intro inputs instanceId fresh h
    simp [resolveComponentEvaluables, construct, resolvable, resolve, Resolvable.or, h,
      defaultPolicy, JsFields.get, JsFields.lookup]

/-- The trust document sent for a role without a service has an empty `Principal`. -/
theorem stringify_trust_document_without_service :
    JSON.stringify (assumeRolePolicyDocument .undefined) =
      .str ("\x7b\x22Version\x22:\x222012-10-17\x22,\x22Statement\x22:\x7b\x22Effect\x22:" ++
        "\x22Allow\x22,\x22Principal\x22:\x7b\x7d,\x22Action\x22:\x22sts:AssumeRole\x22\x7d\x7d") := by
  decide

/-- Witness of C4: the first deployment of the role `abc` for `lambda.amazonaws.com`, and
the deployment of `new-role-name` (no service) over `old-role-name`, against a provider
that accepts every request; the trust documents are the texts the tests expect. -/
theorem deploy_create_path_witness :
    (deploy acceptingIAM lambdaRole none).trace =
        [.call (.createRole (.str "abc") (.str "/")
            (.str ("\x7b\x22Version\x22:\x222012-10-17\x22,\x22Statement\x22:\x7b\x22Effect\x22:" ++
              "\x22Allow\x22,\x22Principal\x22:\x7b\x22Service\x22:\x22lambda.amazonaws.com\x22" ++
              "\x7d,\x22Action\x22:\x22sts:AssumeRole\x22\x7d\x7d"))),
         .call (.attachRolePolicy (.str "abc")
            (.str "arn:aws:iam::aws:policy/AdministratorAccess")),
         .sleep 15000] ∧
      (deploy acceptingIAM lambdaRole none).outcome =
        .ok { lambdaRole with arn := .str "arn:aws:iam::XXXXX:role/test-role" } ∧
      prevOldName.get "roleName" ≠ .str renamedRole.roleName ∧
      (deploy acceptingIAM renamedRole (some prevOldName)).trace =
        [.call (.createRole (.str "new-role-name") (.str "/")
            (.str ("\x7b\x22Version\x22:\x222012-10-17\x22,\x22Statement\x22:\x7b\x22Effect\x22:" ++
              "\x22Allow\x22,\x22Principal\x22:\x7b\x7d,\x22Action\x22:\x22sts:AssumeRole\x22" ++
              "\x7d\x7d"))),
         .call (.attachRolePolicy (.str "new-role-name")
            (.str "arn:aws:iam::aws:policy/AdministratorAccess")),
         .sleep 15000] :=
  have h := (deploy_create_path acceptingIAM lambdaRole none (Or.inl rfl)).2.1 _ _ rfl rfl
  have h2 := (deploy_create_path acceptingIAM renamedRole (some prevOldName)
    (Or.inr ⟨_, rfl, by decide⟩)).2.1 _ _ rfl rfl
  ⟨h.1, h.2 rfl rfl, by decide, h2.1⟩

/-! ## The lifecycle driver: update path -/

theorem Async.bind_trace {α β : Type} (x : Async α) (f : α → Async β) :
    (Async.bind x f).trace =
      x.trace ++ (match x.outcome with
        | .ok a => (f a).trace
        | .error _ => []) := by
  unfold Async.bind
  cases x.outcome <;> simp

theorem Async.pure_bind {α β : Type} (a : α) (f : α → Async β) :
    Async.bind ⟨[], .ok a⟩ f = f a := by
  simp [Async.bind]

theorem Async.bind_assoc {α β γ : Type} (x : Async α) (f : α → Async β)
    (g : β → Async γ) :
    Async.bind (Async.bind x f) g = Async.bind x (fun a => Async.bind (f a) g) := by
  obtain ⟨t, o⟩ := x
  cases o with
  | error e => rfl
  | ok a =>
    simp only [Async.bind]
    cases h : (f a).outcome <;> simp [h]

theorem Async.bind_pure_trace {α β : Type} (x : Async α) (b : β) :
    (Async.bind x (fun _ => (⟨[], .ok b⟩ : Async β))).trace = x.trace := by
  obtain ⟨t, o⟩ := x
  cases o <;> simp [Async.bind]

theorem Async.bind_pure_outcome_ok {α β : Type} (t : List Effect) (a : α) (b : β) :
    (Async.bind ⟨t, .ok a⟩ (fun _ => (⟨[], .ok b⟩ : Async β))).outcome = .ok b := rfl

theorem countCalls_append (p : Request → Bool) (s t : List Effect) :
    countCalls p (s ++ t) = countCalls p s + countCalls p t := by
  simp [countCalls, List.countP_append]

theorem deploy_update_path (iam : IAM) (this : AwsIamRole Id) (prev : JsFields)
    (hsame : prev.get "roleName" = .str this.roleName) :
    deploy iam this (some prev) =
      Async.bind
        (if strictEq (prev.get "service") this.service = true then pure ()
          else updateAssumeRolePolicy iam (.str this.roleName) this.service)
        (fun _ => Async.bind
          (if equals (prev.get "policy") this.policy.toVal = true then pure ()
            else swapPolicy iam this prev)
          (fun _ => pure this)) := by
  have hs : strictEq (.str this.roleName) (prev.get "roleName") = true := by
    rw [hsame]; exact strictEq_str_self _
  simp only [deploy, hs]
  cases strictEq (prev.get "service") this.service <;>
    cases equals (prev.get "policy") this.policy.toVal <;>
    simp [bind_eq, pure_eq, swapPolicy, Async.bind_assoc, Async.pure_bind]

theorem strictEq_imp_equals (a b : JsVal) (h : strictEq a b = true) : equals a b = true := by
  cases a <;> cases b <;> simp_all [strictEq, equals]

theorem strictEq_of_eq_of_isPrimitive (a : JsVal) (h : a.isPrimitive = true) :
    strictEq a a = true := by
  cases a <;> simp_all [strictEq, JsVal.isPrimitive]

theorem updateAssumeRolePolicy_trace (iam : IAM) (roleName service : JsVal) :
    (updateAssumeRolePolicy iam roleName service).trace =
      [.call (.updateAssumeRolePolicy roleName
        (JSON.stringify (assumeRolePolicyDocument service)))] := by
  cases h : iam (.updateAssumeRolePolicy roleName
      (JSON.stringify (assumeRolePolicyDocument service))) with
  | ok r => rw [updateAssumeRolePolicy_ok _ _ _ _ h]
  | error e => rw [updateAssumeRolePolicy_error _ _ _ _ h]

theorem swapPolicy_trace_prefix (iam : IAM) (this : AwsIamRole Id) (prev : JsFields) :
    (swapPolicy iam this prev).trace <+:
      [.call (.detachRolePolicy (prev.get "roleName") (readProp (prev.get "policy") "arn")),
       .call (.attachRolePolicy (.str this.roleName) (this.policy.fields.get "arn")),
       .sleep 15000] := by
  unfold swapPolicy
  cases hp : (prev.get "policy").isNil with
  | true =>
    obtain ⟨e, he⟩ := detachRolePolicy_nil iam (prev.get "roleName") _ hp
    simp [he, bind_eq, Async.bind_error]
  | false =>
    cases hd : iam (.detachRolePolicy (prev.get "roleName")
        (readProp (prev.get "policy") "arn")) with
    | error e =>
      simp [detachRolePolicy_error _ _ _ _ hp hd, bind_eq, Async.bind_error]
    | ok r =>
      cases ha : iam (.attachRolePolicy (.str this.roleName)
          (readProp this.policy.toVal "arn")) with
      | error e =>
        simp [detachRolePolicy_ok _ _ _ _ hp hd,
          attachRolePolicy_error _ _ _ _ (toVal_isNil _) ha, bind_eq, Async.bind_ok,
          readProp_toVal]
      | ok r2 =>
        simp [detachRolePolicy_ok _ _ _ _ hp hd,
          attachRolePolicy_ok _ _ _ _ (toVal_isNil _) ha, bind_eq, Async.bind_ok,
          readProp_toVal]

theorem swapPolicy_ok (iam : IAM) (this : AwsIamRole Id) (prev : JsFields) (r r2 : JsVal)
    (hp : (prev.get "policy").isNil = false)
    (hd : iam (.detachRolePolicy (prev.get "roleName")
      (readProp (prev.get "policy") "arn")) = .ok r)
    (ha : iam (.attachRolePolicy (.str this.roleName) (this.policy.fields.get "arn"))
      = .ok r2) :
    swapPolicy iam this prev =
      ⟨[.call (.detachRolePolicy (prev.get "roleName") (readProp (prev.get "policy") "arn")),
        .call (.attachRolePolicy (.str this.roleName) (this.policy.fields.get "arn")),
        .sleep 15000], .ok ()⟩ := by
  rw [← readProp_toVal] at ha
  simp [swapPolicy, detachRolePolicy_ok _ _ _ _ hp hd,
    attachRolePolicy_ok _ _ _ _ (toVal_isNil _) ha, bind_eq, Async.bind_ok, readProp_toVal]

/-- The effects of the update path, whatever the provider answers: an initial part of the
trust update (when the service is not identical) followed by the policy swap (when the
policy is not deeply equal). -/
theorem deploy_update_trace_prefix (iam : IAM) (this : AwsIamRole Id) (prev : JsFields)
    (hsame : prev.get "roleName" = .str this.roleName) :
    (deploy iam this (some prev)).trace <+:
      (if strictEq (prev.get "service") this.service = true then []
        else [.call (.updateAssumeRolePolicy (.str this.roleName)
          (JSON.stringify (assumeRolePolicyDocument this.service)))]) ++
      (if equals (prev.get "policy") this.policy.toVal = true then []
        else [.call (.detachRolePolicy (.str this.roleName)
            (readProp (prev.get "policy") "arn")),
          .call (.attachRolePolicy (.str this.roleName) (this.policy.fields.get "arn")),
          .sleep 15000]) := by
  have hswap := swapPolicy_trace_prefix iam this prev
  rw [hsame] at hswap
  rw [deploy_update_path iam this prev hsame]
  cases h1 : strictEq (prev.get "service") this.service <;>
    cases h2 : equals (prev.get "policy") this.policy.toVal
  · cases hu : iam (.updateAssumeRolePolicy (.str this.roleName)
        (JSON.stringify (assumeRolePolicyDocument this.service))) with
    | error e =>
      simp [updateAssumeRolePolicy_error _ _ _ _ hu, Async.bind_error]
    | ok r =>
      simpa [updateAssumeRolePolicy_ok _ _ _ _ hu, Async.bind_ok, pure_eq,
        Async.bind_pure_trace] using hswap
  · cases hu : iam (.updateAssumeRolePolicy (.str this.roleName)
        (JSON.stringify (assumeRolePolicyDocument this.service))) with
    | error e =>
      simp [updateAssumeRolePolicy_error _ _ _ _ hu, Async.bind_error]
    | ok r =>
      simp [updateAssumeRolePolicy_ok _ _ _ _ hu, Async.bind_ok, pure_eq, Async.pure_bind]
  · simpa [pure_eq, Async.pure_bind, Async.bind_pure_trace] using hswap
  · simp [pure_eq, Async.pure_bind]

theorem countCalls_le_of_prefix (p : Request → Bool) (s t : List Effect) (h : s <+: t) :
    countCalls p s ≤ countCalls p t :=
  List.Sublist.countP_le _ h.sublist

theorem deploy_update_trace_head (iam : IAM) (this : AwsIamRole Id) (prev : JsFields)
    (hsame : prev.get "roleName" = .str this.roleName)
    (hs : strictEq (prev.get "service") this.service = false) :
    ∃ rest, (deploy iam this (some prev)).trace =
      .call (.updateAssumeRolePolicy (.str this.roleName)
        (JSON.stringify (assumeRolePolicyDocument this.service))) :: rest := by
  rw [deploy_update_path iam this prev hsame, Async.bind_trace]
  simp only [hs, Bool.false_eq_true, if_false, updateAssumeRolePolicy_trace]
  exact ⟨_, rfl⟩

/-- C5, as stated, fails in its last part: the service of `edgeRole` is a list of two
principals, the previous instance holds an equal list (another object), and `deploy` issues
an `updateAssumeRolePolicy` request although the service is unchanged. -/
theorem deploy_service_unchanged_counterexample :
    prevEdgeRole.get "roleName" = .str edgeRole.roleName ∧
      equals (prevEdgeRole.get "service") edgeRole.service = true ∧
      countCalls Request.isUpdateAssumeRolePolicy
        (deploy acceptingIAM edgeRole (some prevEdgeRole)).trace = 1 := by
  decide

/-- C5, amended: when the previous instance has the same `roleName`, no `createRole`
request is issued; when moreover its service differs from the service of the instance, the
first effect is an `updateAssumeRolePolicy` request with `RoleName = roleName` and the
serialized trust document whose `Principal.Service` is the new service, and it is the only
such request; the serialized trust document is the JSON text with the members `Version`,
`Statement`, `Effect`, `Principal`, `Action` in this order, whose `Principal.Service` is
the serialized service (an empty `Principal` when the service is `undefined`); when the
service is unchanged and is a primitive value (a string, or absent), no
`updateAssumeRolePolicy` request is issued. -/
theorem deploy_service_update (iam : IAM) (this : AwsIamRole Id) (prev : JsFields)
    (hsame : prev.get "roleName" = .str this.roleName) :
    countCalls Request.isCreateRole (deploy iam this (some prev)).trace = 0 ∧
      (equals (prev.get "service") this.service = false →
        (∃ rest, (deploy iam this (some prev)).trace =
          .call (.updateAssumeRolePolicy (.str this.roleName)
            (JSON.stringify (assumeRolePolicyDocument this.service))) :: rest) ∧
        countCalls Request.isUpdateAssumeRolePolicy (deploy iam this (some prev)).trace = 1) ∧
      (prev.get "service" = this.service → this.service.isPrimitive = true →
        countCalls Request.isUpdateAssumeRolePolicy (deploy iam this (some prev)).trace = 0) ∧
      readProp (readProp (readProp (assumeRolePolicyDocument this.service) "Statement")
          "Principal") "Service" = this.service ∧
      (∀ t, stringifyVal this.service = some t →
        JSON.stringify (assumeRolePolicyDocument this.service) =
          .str ("\x7b\x22Version\x22:\x222012-10-17\x22,\x22Statement\x22:\x7b\x22Effect\x22:" ++
            "\x22Allow\x22,\x22Principal\x22:\x7b\x22Service\x22:" ++ t ++
            "\x7d,\x22Action\x22:\x22sts:AssumeRole\x22\x7d\x7d")) ∧
      (stringifyVal this.service = none →
        JSON.stringify (assumeRolePolicyDocument this.service) =
          .str ("\x7b\x22Version\x22:\x222012-10-17\x22,\x22Statement\x22:\x7b\x22Effect\x22:" ++
            "\x22Allow\x22,\x22Principal\x22:\x7b\x7d,\x22Action\x22:\x22sts:AssumeRole\x22\x7d\x7d")) := by
  have hpre := deploy_update_trace_prefix iam this prev hsame
  refine ⟨?_, ?_, ?_, rfl,
    fun t h => by simp only [JSON.stringify, stringifyVal_trust_document_of_service _ t h],
    fun h => by simp only [JSON.stringify, stringifyVal_trust_document_of_no_service _ h]⟩
  · have h := countCalls_le_of_prefix Request.isCreateRole _ _ hpre
    have h0 : countCalls Request.isCreateRole
        ((if strictEq (prev.get "service") this.service = true then []
          else [.call (.updateAssumeRolePolicy (.str this.roleName)
            (JSON.stringify (assumeRolePolicyDocument this.service)))]) ++
        (if equals (prev.get "policy") this.policy.toVal = true then []
          else [.call (.detachRolePolicy (.str this.roleName)
              (readProp (prev.get "policy") "arn")),
            .call (.attachRolePolicy (.str this.roleName) (this.policy.fields.get "arn")),
            .sleep 15000])) = 0 := by
      cases strictEq (prev.get "service") this.service <;>
        cases equals (prev.get "policy") this.policy.toVal <;>
        simp [countCalls, Request.isCreateRole]
    omega
  · intro hne
    have hs : strictEq (prev.get "service") this.service = false := by
      rw [Bool.eq_false_iff]
      intro h1
      rw [strictEq_imp_equals _ _ h1] at hne
      exact Bool.noConfusion hne
    obtain ⟨rest, hrest⟩ := deploy_update_trace_head iam this prev hsame hs
    refine ⟨⟨rest, hrest⟩, ?_⟩
    have h := countCalls_le_of_prefix Request.isUpdateAssumeRolePolicy _ _ hpre
    have h1 : countCalls Request.isUpdateAssumeRolePolicy
        ((if strictEq (prev.get "service") this.service = true then []
          else [.call (.updateAssumeRolePolicy (.str this.roleName)
            (JSON.stringify (assumeRolePolicyDocument this.service)))]) ++
        (if equals (prev.get "policy") this.policy.toVal = true then []
          else [.call (.detachRolePolicy (.str this.roleName)
              (readProp (prev.get "policy") "arn")),
            .call (.attachRolePolicy (.str this.roleName) (this.policy.fields.get "arn")),
            .sleep 15000])) = 1 := by
      rw [hs]
      cases equals (prev.get "policy") this.policy.toVal <;>
        simp [countCalls, Request.isUpdateAssumeRolePolicy]
    have h2 : 1 ≤ countCalls Request.isUpdateAssumeRolePolicy
        (deploy iam this (some prev)).trace := by
      rw [hrest]
      simp [countCalls, Request.isUpdateAssumeRolePolicy]
    omega
  · intro heq hprim
    have hs : strictEq (prev.get "service") this.service = true := by
      rw [heq]
      exact strictEq_of_eq_of_isPrimitive _ hprim
    have h := countCalls_le_of_prefix Request.isUpdateAssumeRolePolicy _ _ hpre
    have h1 : countCalls Request.isUpdateAssumeRolePolicy
        ((if strictEq (prev.get "service") this.service = true then []
          else [.call (.updateAssumeRolePolicy (.str this.roleName)
            (JSON.stringify (assumeRolePolicyDocument this.service)))]) ++
        (if equals (prev.get "policy") this.policy.toVal = true then []
          else [.call (.detachRolePolicy (.str this.roleName)
              (readProp (prev.get "policy") "arn")),
            .call (.attachRolePolicy (.str this.roleName) (this.policy.fields.get "arn")),
            .sleep 15000])) = 0 := by
      rw [hs]
      cases equals (prev.get "policy") this.policy.toVal <;>
        simp [countCalls, Request.isUpdateAssumeRolePolicy]
    omega

/-- Witness of C5 (amended): the service changes from `lambda.amazonaws.com` to
`apig.amazonaws.com` under the same role name; the first effect is the trust update with
the text the test expects, it is the only one, and no role is created. -/
theorem deploy_service_update_witness :
    prevLambdaOldPolicy.get "roleName" = .str apigRole.roleName ∧
      equals (prevLambdaOldPolicy.get "service") apigRole.service = false ∧
      countCalls Request.isCreateRole
        (deploy acceptingIAM apigRole (some prevLambdaOldPolicy)).trace = 0 ∧
      (∃ rest, (deploy acceptingIAM apigRole (some prevLambdaOldPolicy)).trace =
        .call (.updateAssumeRolePolicy (.str "abc")
          (.str ("\x7b\x22Version\x22:\x222012-10-17\x22,\x22Statement\x22:\x7b\x22Effect\x22:" ++
            "\x22Allow\x22,\x22Principal\x22:\x7b\x22Service\x22:\x22apig.amazonaws.com\x22" ++
            "\x7d,\x22Action\x22:\x22sts:AssumeRole\x22\x7d\x7d"))) :: rest) ∧
      countCalls Request.isUpdateAssumeRolePolicy
        (deploy acceptingIAM apigRole (some prevLambdaOldPolicy)).trace = 1 :=
  have h := deploy_service_update acceptingIAM apigRole prevLambdaOldPolicy (by decide)
  ⟨by decide, by decide, h.1, (h.2.1 (by decide)).1, (h.2.1 (by decide)).2⟩

/-- C6: when the previous instance has the same `roleName` and a policy that is not deeply
equal to the policy of the instance, the effects are, whatever the provider answers, an
initial part of: the trust update (only when the service is not identical), then
`detachRolePolicy` with the `arn` of the previous policy, `attachRolePolicy` with the `arn`
of the new policy, both with `RoleName = roleName`, then `sleep(15000)`; and they are
exactly these when the previous policy is present and the provider answers the requests. -/
theorem deploy_policy_swap (iam : IAM) (this : AwsIamRole Id) (prev : JsFields)
    (hsame : prev.get "roleName" = .str this.roleName)
    (hdiff : equals (prev.get "policy") this.policy.toVal = false) :
    ((deploy iam this (some prev)).trace <+:
        (if strictEq (prev.get "service") this.service = true then []
          else [.call (.updateAssumeRolePolicy (.str this.roleName)
            (JSON.stringify (assumeRolePolicyDocument this.service)))]) ++
        [.call (.detachRolePolicy (.str this.roleName) (readProp (prev.get "policy") "arn")),
         .call (.attachRolePolicy (.str this.roleName) (this.policy.fields.get "arn")),
         .sleep 15000]) ∧
      ((prev.get "policy").isNil = false →
        (strictEq (prev.get "service") this.service = false →
          ∃ r, iam (.updateAssumeRolePolicy (.str this.roleName)
            (JSON.stringify (assumeRolePolicyDocument this.service))) = .ok r) →
        (∃ r, iam (.detachRolePolicy (.str this.roleName)
          (readProp (prev.get "policy") "arn")) = .ok r) →
        (∃ r, iam (.attachRolePolicy (.str this.roleName) (this.policy.fields.get "arn"))
          = .ok r) →
        (deploy iam this (some prev)).trace =
            (if strictEq (prev.get "service") this.service = true then []
              else [.call (.updateAssumeRolePolicy (.str this.roleName)
                (JSON.stringify (assumeRolePolicyDocument this.service)))]) ++
            [.call (.detachRolePolicy (.str this.roleName)
                (readProp (prev.get "policy") "arn")),
             .call (.attachRolePolicy (.str this.roleName) (this.policy.fields.get "arn")),
             .sleep 15000] ∧
          (deploy iam this (some prev)).outcome = .ok this) := by
  constructor
  · have hpre := deploy_update_trace_prefix iam this prev hsame
    simpa [hdiff] using hpre
  · intro hp hu hd ha
    obtain ⟨rd, hd⟩ := hd
    obtain ⟨ra, ha⟩ := ha
    rw [← hsame] at hd
    have hswap := swapPolicy_ok iam this prev rd ra hp hd ha
    rw [hsame] at hswap
    rw [deploy_update_path iam this prev hsame]
    cases hs : strictEq (prev.get "service") this.service with
    | true =>
      simp [hdiff, hswap, pure_eq, Async.pure_bind, Async.bind_ok]
    | false =>
      obtain ⟨ru, hu⟩ := hu hs
      simp [hdiff, hswap, pure_eq, Async.pure_bind, Async.bind_ok,
        updateAssumeRolePolicy_ok _ _ _ _ hu]

/-- Witness of C6: the policy changes from `oldPolicy` to the default policy and the
service changes too; the trust update and the policy swap both fire. -/
theorem deploy_policy_swap_witness :
    prevLambdaOldPolicy.get "roleName" = .str apigRole.roleName ∧
      equals (prevLambdaOldPolicy.get "policy") apigRole.policy.toVal = false ∧
      (deploy acceptingIAM apigRole (some prevLambdaOldPolicy)).trace =
        [.call (.updateAssumeRolePolicy (.str "abc")
            (JSON.stringify (assumeRolePolicyDocument (.str "apig.amazonaws.com")))),
         .call (.detachRolePolicy (.str "abc") (.str "arn:aws:iam::aws:policy/oldPolicy")),
         .call (.attachRolePolicy (.str "abc")
            (.str "arn:aws:iam::aws:policy/AdministratorAccess")),
         .sleep 15000] ∧
      (deploy acceptingIAM apigRole (some prevLambdaOldPolicy)).outcome = .ok apigRole :=
  have h := (deploy_policy_swap acceptingIAM apigRole prevLambdaOldPolicy (by decide)
    (by decide)).2 (by decide) (fun _ => ⟨_, rfl⟩) ⟨_, rfl⟩ ⟨_, rfl⟩
  ⟨by decide, by decide, h.1, h.2⟩

/-! ## The lifecycle driver: remove -/

theorem deleteRole_of_detach_ok (iam : IAM) (this : AwsIamRole Id) (r : JsVal)
    (hd : iam (.detachRolePolicy (.str this.roleName) (this.policy.fields.get "arn"))
      = .ok r) :
    deleteRole iam (.str this.roleName) this.policy.toVal =
      ⟨[.call (.detachRolePolicy (.str this.roleName) (this.policy.fields.get "arn")),
        .call (.deleteRole (.str this.roleName))],
        match iam (.deleteRole (.str this.roleName)) with
        | .ok _ => .ok .null
        | .error e => .error e⟩ := by
  rw [← readProp_toVal] at hd
  cases hl : iam (.deleteRole (.str this.roleName)) <;>
    simp [deleteRole, detachRolePolicy_ok _ _ _ _ (toVal_isNil _) hd, Async.tryCatch_ok,
      bind_eq, pure_eq, Async.bind_ok, Async.bind_error, IAM.send, hl, readProp_toVal]

theorem deleteRole_of_detach_tolerated (iam : IAM) (this : AwsIamRole Id) (e0 : JsError)
    (hd : iam (.detachRolePolicy (.str this.roleName) (this.policy.fields.get "arn"))
      = .error e0)
    (hm : e0.message = policyNotFoundMessage this) :
    deleteRole iam (.str this.roleName) this.policy.toVal =
      ⟨[.call (.detachRolePolicy (.str this.roleName) (this.policy.fields.get "arn")),
        .call (.deleteRole (.str this.roleName))],
        match iam (.deleteRole (.str this.roleName)) with
        | .ok _ => .ok .null
        | .error e => .error e⟩ := by
  rw [← readProp_toVal] at hd
  unfold policyNotFoundMessage at hm
  cases hl : iam (.deleteRole (.str this.roleName)) <;>
    simp [deleteRole, detachRolePolicy_error _ _ _ _ (toVal_isNil _) hd,
      Async.tryCatch_error, getProp_toVal, bind_eq, pure_eq, Async.bind_ok,
      Async.bind_error, IAM.send, hl, readProp_toVal, hm]

theorem deleteRole_of_detach_fatal (iam : IAM) (this : AwsIamRole Id) (e0 : JsError)
    (hd : iam (.detachRolePolicy (.str this.roleName) (this.policy.fields.get "arn"))
      = .error e0)
    (hm : e0.message ≠ policyNotFoundMessage this) :
    deleteRole iam (.str this.roleName) this.policy.toVal =
      ⟨[.call (.detachRolePolicy (.str this.roleName) (this.policy.fields.get "arn"))],
        .error e0⟩ := by
  rw [← readProp_toVal] at hd
  unfold policyNotFoundMessage at hm
  simp [deleteRole, detachRolePolicy_error _ _ _ _ (toVal_isNil _) hd,
    Async.tryCatch_error, getProp_toVal, bind_eq, pure_eq, Async.bind_ok,
    Async.bind_error, Async.throw, readProp_toVal, hm]

theorem remove_of_detach_pass (iam : IAM) (this : AwsIamRole Id)
    (hd : (∃ r, iam (.detachRolePolicy (.str this.roleName) (this.policy.fields.get "arn"))
        = .ok r) ∨
      ∃ e0, iam (.detachRolePolicy (.str this.roleName) (this.policy.fields.get "arn"))
        = .error e0 ∧ e0.message = policyNotFoundMessage this) :
    remove iam this =
      ⟨[.call (.detachRolePolicy (.str this.roleName) (this.policy.fields.get "arn")),
        .call (.deleteRole (.str this.roleName))],
        match iam (.deleteRole (.str this.roleName)) with
        | .ok _ => .ok { this with arn := .null }
        | .error e =>
          if includes e.message "Role not found" = true then .ok this else .error e⟩ := by
  have hdel : deleteRole iam (.str this.roleName) this.policy.toVal =
      ⟨[.call (.detachRolePolicy (.str this.roleName) (this.policy.fields.get "arn")),
        .call (.deleteRole (.str this.roleName))],
        match iam (.deleteRole (.str this.roleName)) with
        | .ok _ => .ok .null
        | .error e => .error e⟩ := by
    rcases hd with ⟨r, h⟩ | ⟨e0, h, hm⟩
    · exact deleteRole_of_detach_ok iam this r h
    · exact deleteRole_of_detach_tolerated iam this e0 h hm
  unfold remove
  rw [hdel]
  cases hl : iam (.deleteRole (.str this.roleName)) with
  | ok r => simp [bind_eq, pure_eq, Async.bind_ok, Async.tryCatch_ok]
  | error e =>
    cases hi : includes e.message "Role not found" <;>
      simp [bind_eq, pure_eq, Async.bind_error, Async.tryCatch_error, Async.throw, hi]

theorem remove_of_detach_fatal (iam : IAM) (this : AwsIamRole Id) (e0 : JsError)
    (hd : iam (.detachRolePolicy (.str this.roleName) (this.policy.fields.get "arn"))
      = .error e0)
    (hm : e0.message ≠ policyNotFoundMessage this) :
    remove iam this =
      ⟨[.call (.detachRolePolicy (.str this.roleName) (this.policy.fields.get "arn"))],
        if includes e0.message "Role not found" = true then .ok this else .error e0⟩ := by
  unfold remove
  rw [deleteRole_of_detach_fatal iam this e0 hd hm]
  cases hi : includes e0.message "Role not found" <;>
    simp [bind_eq, pure_eq, Async.bind_error, Async.tryCatch_error, Async.throw, hi]

/-- C7: when the detach request passes (it succeeds, or fails with the exact
policy-not-found message), `remove` issues exactly one `detachRolePolicy` request
(`RoleName = roleName`, `PolicyArn = policy.arn`) followed by exactly one `deleteRole`
request (`RoleName = roleName`); it completes when the delete succeeds, and it also
completes, without raising, when the delete fails with a `Role not found` message. -/
theorem remove_detach_then_delete (iam : IAM) (this : AwsIamRole Id)
    (hd : (∃ r, iam (.detachRolePolicy (.str this.roleName) (this.policy.fields.get "arn"))
        = .ok r) ∨
      ∃ e0, iam (.detachRolePolicy (.str this.roleName) (this.policy.fields.get "arn"))
        = .error e0 ∧ e0.message = policyNotFoundMessage this) :
    (remove iam this).trace =
        [.call (.detachRolePolicy (.str this.roleName) (this.policy.fields.get "arn")),
         .call (.deleteRole (.str this.roleName))] ∧
      (∀ r, iam (.deleteRole (.str this.roleName)) = .ok r →
        (remove iam this).outcome = .ok { this with arn := .null }) ∧
      (∀ e, iam (.deleteRole (.str this.roleName)) = .error e →
        includes e.message "Role not found" = true →
        (remove iam this).outcome = .ok this) := by
  rw [remove_of_detach_pass iam this hd]
  refine ⟨rfl, ?_, ?_⟩
  · intro r hl
    simp [hl]
  · intro e hl hi
    simp [hl, hi]

/-- Witness of C7: the provider accepts the detach and reports `Role not found` on the
delete; `remove` issues both requests and completes. -/
theorem remove_detach_then_delete_witness :
    (remove roleGoneIAM lambdaRole).trace =
        [.call (.detachRolePolicy (.str "abc")
            (.str "arn:aws:iam::aws:policy/AdministratorAccess")),
         .call (.deleteRole (.str "abc"))] ∧
      (remove roleGoneIAM lambdaRole).outcome = .ok lambdaRole ∧
      (remove acceptingIAM lambdaRole).outcome = .ok { lambdaRole with arn := .null } :=
  have h := remove_detach_then_delete roleGoneIAM lambdaRole (Or.inl ⟨_, rfl⟩)
  have h2 := remove_detach_then_delete acceptingIAM lambdaRole (Or.inl ⟨_, rfl⟩)
  ⟨h.1, h.2.2 _ rfl (by decide), h2.2.1 _ rfl⟩

/-- C8, as stated, fails: the detach request fails with a message that is not the
policy-not-found message but contains `Role not found`; `remove` completes without
raising, and no `deleteRole` request is issued. -/
theorem remove_swallows_detach_error_counterexample :
    roleGoneOnDetachIAM (.detachRolePolicy (.str lambdaRole.roleName)
        (lambdaRole.policy.fields.get "arn"))
        = .error ⟨"NoSuchEntity: Role not found for abc"⟩ ∧
      "NoSuchEntity: Role not found for abc" ≠ policyNotFoundMessage lambdaRole ∧
      (remove roleGoneOnDetachIAM lambdaRole).outcome = .ok lambdaRole ∧
      countCalls Request.isDeleteRole (remove roleGoneOnDetachIAM lambdaRole).trace = 0 :=
  ⟨rfl, by decide, rfl, by decide⟩

/-- C8, amended: `remove` raises `err` exactly when the message of `err` does not contain
`Role not found` and either the detach request failed with `err`, which is not the exact
policy-not-found error, or the detach request passed (it succeeded or failed with the exact
policy-not-found error) and the delete request failed with `err`.  After a tolerated
detach failure the delete request is still issued; after any other detach failure it is
not. -/
theorem remove_raises_iff (iam : IAM) (this : AwsIamRole Id) (err : JsError) :
    ((remove iam this).outcome = .error err ↔
        includes err.message "Role not found" = false ∧
          ((iam (.detachRolePolicy (.str this.roleName) (this.policy.fields.get "arn"))
                = .error err ∧ err.message ≠ policyNotFoundMessage this) ∨
            (((∃ r, iam (.detachRolePolicy (.str this.roleName)
                  (this.policy.fields.get "arn")) = .ok r) ∨
                ∃ e0, iam (.detachRolePolicy (.str this.roleName)
                  (this.policy.fields.get "arn")) = .error e0 ∧
                  e0.message = policyNotFoundMessage this) ∧
              iam (.deleteRole (.str this.roleName)) = .error err))) ∧
      (∀ e0, iam (.detachRolePolicy (.str this.roleName) (this.policy.fields.get "arn"))
          = .error e0 →
        ((e0.message = policyNotFoundMessage this →
            (remove iam this).trace =
              [.call (.detachRolePolicy (.str this.roleName) (this.policy.fields.get "arn")),
               .call (.deleteRole (.str this.roleName))]) ∧
          (e0.message ≠ policyNotFoundMessage this →
            (remove iam this).trace =
              [.call (.detachRolePolicy (.str this.roleName)
                (this.policy.fields.get "arn"))]))) := by
  constructor
  · cases hd : iam (.detachRolePolicy (.str this.roleName) (this.policy.fields.get "arn")) with
    | ok r =>
      rw [remove_of_detach_pass iam this (Or.inl ⟨r, hd⟩)]
      cases hl : iam (.deleteRole (.str this.roleName)) with
      | ok r2 => simp
      | error e =>
        cases hi : includes e.message "Role not found"
        · simp only [hi, Bool.false_eq_true, if_false]
          constructor
          · intro h
            have he : e = err := by simpa using h
            subst he
            exact ⟨hi, Or.inr ⟨Or.inl ⟨r, rfl⟩, rfl⟩⟩
          · rintro ⟨_, h | ⟨_, h⟩⟩
            · exact absurd h.1 (by simp)
            · rw [Except.error.inj h]
        · simp only [hi, if_true]
          constructor
          · intro h
            exact absurd h (by simp)
          · rintro ⟨hf, h | ⟨_, h⟩⟩
            · exact absurd h.1 (by simp)
            · have he : e = err := by simpa using h
              subst he
              rw [hi] at hf
              exact absurd hf (by simp)
    | error e0 =>
      by_cases hm : e0.message = policyNotFoundMessage this
      · rw [remove_of_detach_pass iam this (Or.inr ⟨e0, hd, hm⟩)]
        cases hl : iam (.deleteRole (.str this.roleName)) with
        | ok r2 =>
          simp only [false_and, and_false, or_false, iff_false]
          constructor
          · intro h
            exact absurd h (by simp)
          · rintro ⟨_, h | ⟨_, h⟩⟩
            · have he : e0 = err := by simpa using h.1
              subst he
              exact absurd hm h.2
            · exact absurd h (by simp)
        | error e =>
          cases hi : includes e.message "Role not found"
          · simp only [hi, Bool.false_eq_true, if_false]
            constructor
            · intro h
              have he : e = err := by simpa using h
              subst he
              exact ⟨hi, Or.inr ⟨Or.inr ⟨e0, rfl, hm⟩, rfl⟩⟩
            · rintro ⟨_, h | ⟨_, h⟩⟩
              · have he : e0 = err := by simpa using h.1
                subst he
                exact absurd hm h.2
              · rw [Except.error.inj h]
          · simp only [hi, if_true]
            constructor
            · intro h
              exact absurd h (by simp)
            · rintro ⟨hf, h | ⟨_, h⟩⟩
              · have he : e0 = err := by simpa using h.1
                subst he
                exact absurd hm h.2
              · have he : e = err := by simpa using h
                subst he
                rw [hi] at hf
                exact absurd hf (by simp)
      · rw [remove_of_detach_fatal iam this e0 hd hm]
        cases hi : includes e0.message "Role not found"
        · simp only [hi, Bool.false_eq_true, if_false]
          constructor
          · intro h
            have he : e0 = err := by simpa using h
            subst he
            exact ⟨hi, Or.inl ⟨rfl, hm⟩⟩
          · rintro ⟨_, h | ⟨h1, _⟩⟩
            · rw [Except.error.inj h.1]
            · rcases h1 with ⟨r, h1⟩ | ⟨e1, h1, hm1⟩
              · exact absurd h1 (by simp)
              · have he : e0 = e1 := by simpa using h1
                subst he
                exact absurd hm1 hm
        · simp only [hi, if_true]
          constructor
          · intro h
            exact absurd h (by simp)
          · rintro ⟨hf, h | ⟨h1, _⟩⟩
            · have he : e0 = err := by simpa using h.1
              subst he
              rw [hi] at hf
              exact absurd hf (by simp)
            · rcases h1 with ⟨r, h1⟩ | ⟨e1, h1, hm1⟩
              · exact absurd h1 (by simp)
              · have he : e0 = e1 := by simpa using h1
                subst he
                exact absurd hm1 hm
  · intro e0 hd
    constructor
    · intro hm
      rw [remove_of_detach_pass iam this (Or.inr ⟨e0, hd, hm⟩)]
    · intro hm
      rw [remove_of_detach_fatal iam this e0 hd hm]

/-- Witness of C8 (amended): the attached policy no longer exists; the detach failure is
tolerated, the delete request is still issued and `remove` completes. -/
theorem remove_raises_iff_witness :
    (remove policyGoneIAM lambdaRole).trace =
        [.call (.detachRolePolicy (.str "abc")
            (.str "arn:aws:iam::aws:policy/AdministratorAccess")),
         .call (.deleteRole (.str "abc"))] ∧
      ¬ (remove policyGoneIAM lambdaRole).outcome
        = .error ⟨"Policy arn:aws:iam::aws:policy/AdministratorAccess was not found."⟩ :=
  have h := remove_raises_iff policyGoneIAM lambdaRole
    ⟨"Policy arn:aws:iam::aws:policy/AdministratorAccess was not found."⟩
  ⟨(h.2 _ rfl).1 (by decide), fun hr => by
    rcases (h.1.1 hr).2 with ⟨_, h3⟩ | ⟨_, h3⟩
    · exact h3 (by decide)
    · exact absurd h3 (by simp [policyGoneIAM])⟩

/-! ## The derived identifier after `deploy` -/

theorem Async.outcome_of_bind_const {α β : Type} (x : Async α) (z : Async β) (r : β)
    (h : (Async.bind x (fun _ => z)).outcome = .ok r) : z.outcome = .ok r := by
  obtain ⟨t, o⟩ := x
  cases o with
  | error e => simp [Async.bind] at h
  | ok a => simpa [Async.bind] using h

/-- C10, as stated, fails on the update-only path: a freshly constructed instance (its
`arn` is `undefined`) deployed over a previous instance of the same name completes without
raising, and its `arn` is still `undefined`. -/
theorem deploy_arn_counterexample :
    (deploy acceptingIAM apigRole (some prevLambdaOldPolicy)).outcome = .ok apigRole ∧
      apigRole.arn = .undefined ∧ apigRole.arn.truthy = false :=
  ⟨rfl, rfl, rfl⟩

/-- C10, amended: if `deploy` completes without raising then, on the create path, the
`createRole` request was answered and the `arn` of the instance is the `Arn` of the role in
that answer (non-empty when the provider returns a non-empty `Arn`); on the update-only
paths the instance, its `arn` included, is left as it was. -/
theorem deploy_arn_after (iam : IAM) (this : AwsIamRole Id)
    (prevInstance : Option JsFields) (result : AwsIamRole Id)
    (h : (deploy iam this prevInstance).outcome = .ok result) :
    ((prevInstance = none ∨
        ∃ prev, prevInstance = some prev ∧ prev.get "roleName" ≠ .str this.roleName) →
        ∃ roleRes,
          iam (.createRole (.str this.roleName) (.str "/")
            (JSON.stringify (assumeRolePolicyDocument this.service))) = .ok roleRes ∧
          result = { this with arn := readProp (readProp roleRes "Role") "Arn" }) ∧
      (∀ prev, prevInstance = some prev → prev.get "roleName" = .str this.roleName →
        result = this) := by
  constructor
  · intro hcreate
    have hdeploy : deploy iam this prevInstance =
        (createRole iam (.str this.roleName) this.service this.policy.toVal >>= fun arn =>
          pure { this with arn := arn }) := by
      rcases hcreate with h1 | ⟨prev, h1, hne⟩
      · subst h1; rfl
      · subst h1
        have hs : strictEq (.str this.roleName) (prev.get "roleName") = false := by
          rw [Bool.eq_false_iff]
          intro h2
          exact hne ((strictEq_str_left _ _).1 h2)
        simp [deploy, hs]
    rw [hdeploy] at h
    cases h1 : iam (.createRole (.str this.roleName) (.str "/")
        (JSON.stringify (assumeRolePolicyDocument this.service))) with
    | error e =>
      simp [createRole, bind_eq, pure_eq, Async.bind_error, IAM.send, h1] at h
    | ok roleRes =>
      refine ⟨roleRes, rfl, ?_⟩
      cases h2 : iam (.attachRolePolicy (.str this.roleName)
          (readProp this.policy.toVal "arn")) with
      | error e =>
        simp [createRole, attachRolePolicy_error _ _ _ _ (toVal_isNil _) h2, bind_eq,
          pure_eq, Async.bind_ok, Async.bind_error, IAM.send, h1] at h
      | ok attachRes =>
        rcases getProp_cases roleRes "Role" with h3 | ⟨e, h3⟩
        · rcases getProp_cases (readProp roleRes "Role") "Arn" with h4 | ⟨e, h4⟩
          · simp [createRole, attachRolePolicy_ok _ _ _ _ (toVal_isNil _) h2, bind_eq,
              pure_eq, Async.bind_ok, Async.bind_error, IAM.send, h1, h3, h4] at h
            exact h.symm
          · simp [createRole, attachRolePolicy_ok _ _ _ _ (toVal_isNil _) h2, bind_eq,
              pure_eq, Async.bind_ok, Async.bind_error, IAM.send, h1, h3, h4] at h
        · simp [createRole, attachRolePolicy_ok _ _ _ _ (toVal_isNil _) h2, bind_eq,
            pure_eq, Async.bind_ok, Async.bind_error, IAM.send, h1, h3] at h
  · intro prev hprev hsame
    subst hprev
    rw [deploy_update_path iam this prev hsame] at h
    have h1 := Async.outcome_of_bind_const _ _ _ h
    have h2 := Async.outcome_of_bind_const _ _ _ h1
    simpa [pure_eq] using h2.symm

/-- Witness of C10 (amended): a first deployment that completes sets the `arn` to the
`Arn` answered by the provider. -/
theorem deploy_arn_after_witness :
    (deploy acceptingIAM lambdaRole none).outcome =
        .ok { lambdaRole with arn := .str "arn:aws:iam::XXXXX:role/test-role" } ∧
      ∃ roleRes,
        acceptingIAM (.createRole (.str lambdaRole.roleName) (.str "/")
          (JSON.stringify (assumeRolePolicyDocument lambdaRole.service))) = .ok roleRes ∧
        ({ lambdaRole with arn := .str "arn:aws:iam::XXXXX:role/test-role" } : AwsIamRole Id) =
          { lambdaRole with arn := readProp (readProp roleRes "Role") "Arn" } :=
  ⟨rfl, (deploy_arn_after acceptingIAM lambdaRole none
    { lambdaRole with arn := .str "arn:aws:iam::XXXXX:role/test-role" } rfl).1 (Or.inl rfl)⟩

/-! ## Environment credentials -/

theorem JsFields.lookup_after_set :
    ∀ (o : JsFields) (f g : String) (v : JsVal),
      (o.set f v).lookup g = if f = g then some v else o.lookup g
  | .nil, f, g, v => by simp [JsFields.set, JsFields.lookup]
  | .cons k w rest, f, g, v => by
    have ih := JsFields.lookup_after_set rest f g v
    by_cases hk : k = f
    · subst hk
      by_cases hg : k = g <;> simp [JsFields.set, JsFields.lookup, hg]
    · by_cases hg : k = g
      · subst hg
        have hne : ¬ f = k := fun h => hk h.symm
        simp [JsFields.set, JsFields.lookup, hk, hne]
      · simp [JsFields.set, JsFields.lookup, hk, hg, ih]

theorem Credentials.lookup_after_assign (c : Credentials) (p q : String) (o : JsFields) :
    Credentials.lookup (Credentials.set c p o) q =
      if p = q then some o else Credentials.lookup c q := by
  induction c with
  | nil => simp [Credentials.set, Credentials.lookup]
  | cons hd rest ih =>
    obtain ⟨k, w⟩ := hd
    by_cases hk : k = p
    · subst hk
      by_cases hq : k = q <;> simp [Credentials.set, Credentials.lookup, hq]
    · by_cases hq : k = q
      · subst hq
        have hne : ¬ p = k := fun h => hk h.symm
        simp [Credentials.set, Credentials.lookup, hk, hne]
      · simp [Credentials.set, Credentials.lookup, hk, hq, ih]

/-- The effect of one turn of the loop on the property `credentials[q][g]`: it is
overwritten with the value of the environment variable exactly when this turn is about
that property, the variable is set, and the current value is missing or falsy. -/
theorem field_addEnvVar (envVars : JsFields) (p : String) (c : Credentials)
    (ev f q g : String) :
    Credentials.field (addEnvVar envVars p c (ev, f)) q g =
      if p = q ∧ f = g ∧ envVars.has ev = true ∧
          ((Credentials.field c p f).getD .undefined).truthy = false then
        some (envVars.get ev)
      else Credentials.field c q g := by
  unfold addEnvVar
  cases hev : envVars.has ev with
  | false => simp
  | true =>
    cases hl : Credentials.lookup c p with
    | none =>
      by_cases hq : p = q
      · subst hq
        by_cases hg : f = g <;>
          simp [Credentials.field, hl, Credentials.lookup_after_assign, JsFields.lookup_after_set,
            JsFields.get, JsFields.lookup, JsVal.truthy, hg]
      · simp [Credentials.field, hl, Credentials.lookup_after_assign, JsFields.lookup_after_set,
          JsFields.get, JsFields.lookup, JsVal.truthy, hq]
    | some o =>
      cases ht : ((o.lookup f).getD .undefined).truthy with
      | true =>
        simp [Credentials.field, hl, JsFields.get, ht]
      | false =>
        by_cases hq : p = q
        · subst hq
          by_cases hg : f = g
          · subst hg
            simp [Credentials.field, hl, Credentials.lookup_after_assign, JsFields.lookup_after_set,
              JsFields.get, ht]
          · simp [Credentials.field, hl, Credentials.lookup_after_assign, JsFields.lookup_after_set,
              JsFields.get, ht, hg]
        · simp [Credentials.field, hl, Credentials.lookup_after_assign, JsFields.lookup_after_set,
            JsFields.get, ht, hq]

theorem addEnvVarsToCredentials_eq (envVars : JsFields) (credentials : Credentials) :
    addEnvVarsToCredentials envVars credentials =
      addEnvVar envVars "aws"
        (addEnvVar envVars "aws"
          (addEnvVar envVars "aws" credentials ("AWS_ACCESS_KEY_ID", "accessKeyId"))
          ("AWS_SECRET_ACCESS_KEY", "secretAccessKey"))
        ("AWS_SESSION_TOKEN", "sessionToken") := rfl

theorem field_addEnvVar_of_truthy (envVars : JsFields) (p : String) (c : Credentials)
    (ev f q g : String) (v : JsVal) (h : Credentials.field c q g = some v)
    (hv : v.truthy = true) :
    Credentials.field (addEnvVar envVars p c (ev, f)) q g = some v := by
  rw [field_addEnvVar]
  split_ifs with hc
  · obtain ⟨hp, hf, _, ht⟩ := hc
    subst hp
    subst hf
    rw [h] at ht
    simp [hv] at ht
  · exact h

/-- C9, as stated, fails: the explicit credentials have the field `accessKeyId`, holding
the empty string, and the result holds the value of `AWS_ACCESS_KEY_ID` instead. -/
theorem addEnvVarsToCredentials_counterexample :
    Credentials.field emptyKeyCredentials "aws" "accessKeyId" = some (.str "") ∧
      Credentials.field (addEnvVarsToCredentials keyAndTokenEnv emptyKeyCredentials)
        "aws" "accessKeyId" = some (.str "AKIA") := by
  decide

/-- C9, amended: a field of the explicit credentials that holds a truthy value keeps this
value in the result; and a field of the result differs from the explicit credentials only
if it was absent from them or held a falsy value (such as the empty string), in which case
it is one of `aws.accessKeyId`, `aws.secretAccessKey`, `aws.sessionToken` and holds the
value of `AWS_ACCESS_KEY_ID`, `AWS_SECRET_ACCESS_KEY`, `AWS_SESSION_TOKEN` respectively,
which is set in the environment. -/
theorem addEnvVarsToCredentials_explicit_wins (envVars : JsFields)
    (credentials : Credentials) (provider field : String) :
    (∀ v, Credentials.field credentials provider field = some v → v.truthy = true →
        Credentials.field (addEnvVarsToCredentials envVars credentials) provider field
          = some v) ∧
      (Credentials.field (addEnvVarsToCredentials envVars credentials) provider field ≠
          Credentials.field credentials provider field →
        (Credentials.field credentials provider field = none ∨
          ∃ v, Credentials.field credentials provider field = some v ∧ v.truthy = false) ∧
        provider = "aws" ∧
        ((field = "accessKeyId" ∧ envVars.has "AWS_ACCESS_KEY_ID" = true ∧
            Credentials.field (addEnvVarsToCredentials envVars credentials) provider field
              = some (envVars.get "AWS_ACCESS_KEY_ID")) ∨
          (field = "secretAccessKey" ∧ envVars.has "AWS_SECRET_ACCESS_KEY" = true ∧
            Credentials.field (addEnvVarsToCredentials envVars credentials) provider field
              = some (envVars.get "AWS_SECRET_ACCESS_KEY")) ∨
          (field = "sessionToken" ∧ envVars.has "AWS_SESSION_TOKEN" = true ∧
            Credentials.field (addEnvVarsToCredentials envVars credentials) provider field
              = some (envVars.get "AWS_SESSION_TOKEN")))) := by
  have hkeep : ∀ v, Credentials.field credentials provider field = some v →
      v.truthy = true →
      Credentials.field (addEnvVarsToCredentials envVars credentials) provider field
        = some v := by
    intro v h hv
    rw [addEnvVarsToCredentials_eq]
    exact field_addEnvVar_of_truthy _ _ _ _ _ _ _ _
      (field_addEnvVar_of_truthy _ _ _ _ _ _ _ _
        (field_addEnvVar_of_truthy _ _ _ _ _ _ _ _ h hv) hv) hv
  refine ⟨hkeep, ?_⟩
  intro hne
  have hfalsy : Credentials.field credentials provider field = none ∨
      ∃ v, Credentials.field credentials provider field = some v ∧ v.truthy = false := by
    cases hf : Credentials.field credentials provider field with
    | none => exact Or.inl rfl
    | some v =>
      cases hv : v.truthy with
      | false => exact Or.inr ⟨v, rfl, hv⟩
      | true => exact absurd (hkeep v hf hv) (by rw [hf] at hne; exact hne)
  refine ⟨hfalsy, ?_⟩
  rw [addEnvVarsToCredentials_eq] at hne ⊢
  by_cases hp : "aws" = provider
  · subst hp
    refine ⟨rfl, ?_⟩
    by_cases h1 : "accessKeyId" = field
    · subst h1
      simp only [field_addEnvVar] at hne ⊢
      simp at hne ⊢
      exact ⟨hne.1, fun h => absurd (h hne.1) (by simp [hne.2.1])⟩
    · by_cases h2 : "secretAccessKey" = field
      · subst h2
        simp only [field_addEnvVar] at hne ⊢
        simp at hne ⊢
        exact ⟨hne.1, fun h => absurd (h hne.1) (by simp [hne.2.1])⟩
      · by_cases h3 : "sessionToken" = field
        · subst h3
          simp only [field_addEnvVar] at hne ⊢
          simp at hne ⊢
          exact ⟨hne.1, fun h => absurd (h hne.1) (by simp [hne.2.1])⟩
        · exfalso
          apply hne
          simp [field_addEnvVar, h1, h2, h3]
  · exfalso
    apply hne
    simp [field_addEnvVar, hp]

/-- Witness of C9 (amended): the explicit access key id is kept although the environment
sets `AWS_ACCESS_KEY_ID`, and the missing session token is taken from the environment. -/
theorem addEnvVarsToCredentials_explicit_wins_witness :
    Credentials.field (addEnvVarsToCredentials keyAndTokenEnv explicitKeyCredentials)
        "aws" "accessKeyId" = some (.str "mine") ∧
      Credentials.field (addEnvVarsToCredentials keyAndTokenEnv explicitKeyCredentials)
        "aws" "sessionToken" = some (.str "token") ∧
      Credentials.field explicitKeyCredentials "aws" "sessionToken" = none :=
  ⟨(addEnvVarsToCredentials_explicit_wins keyAndTokenEnv explicitKeyCredentials
      "aws" "accessKeyId").1 _ (by decide) (by decide),
    by decide, by decide⟩

/-! ## The deep comparison is symmetric on well-formed values -/

theorem JsFields.mem_keys_iff :
    ∀ (o : JsFields) (k : String), k ∈ keys o ↔ (o.lookup k).isSome = true
  | .nil, k => by simp [keys, JsFields.lookup]
  | .cons k0 v0 rest, k => by
    have ih := JsFields.mem_keys_iff rest k
    by_cases h : k0 = k
    · simp [keys, JsFields.lookup, h]
    · have h2 : ¬ k = k0 := fun e => h e.symm
      simp [keys, JsFields.lookup, h, h2, ih]

theorem JsFields.keys_nodup : ∀ (o : JsFields), o.wf = true → (keys o).Nodup
  | .nil, _ => by simp [keys]
  | .cons k0 v0 rest, h => by
    simp only [JsFields.wf, Bool.and_eq_true, Bool.not_eq_true', JsFields.has] at h
    have ih := JsFields.keys_nodup rest h.2
    have hk : ¬ k0 ∈ keys rest := by
      rw [JsFields.mem_keys_iff]
      simp [h.1.1]
    simp [keys, ih, hk]

theorem JsFields.length_eq_keys : ∀ (o : JsFields), o.length = (keys o).length
  | .nil => rfl
  | .cons _ _ rest => by
    simp [JsFields.length, keys, JsFields.length_eq_keys rest]

theorem JsFields.wf_of_lookup :
    ∀ (o : JsFields) (k : String) (v : JsVal),
      o.wf = true → o.lookup k = some v → v.wf = true
  | .nil, k, v, _, hl => by simp [JsFields.lookup] at hl
  | .cons k0 v0 rest, k, v, h, hl => by
    simp only [JsFields.wf, Bool.and_eq_true] at h
    by_cases hk : k0 = k
    · simp only [JsFields.lookup, hk, if_true, Option.some.injEq] at hl
      rw [← hl]
      exact h.1.2
    · simp only [JsFields.lookup, hk, if_false] at hl
      exact JsFields.wf_of_lookup rest k v h.2 hl

theorem equalsFields_iff :
    ∀ (fa fb : JsFields), fa.wf = true →
      (equalsFields fa fb = true ↔
        ∀ k v, fa.lookup k = some v → ∃ w, fb.lookup k = some w ∧ equals v w = true)
  | .nil, fb, _ => by simp [equalsFields, JsFields.lookup]
  | .cons k0 v0 rest, fb, h => by
    simp only [JsFields.wf, Bool.and_eq_true, Bool.not_eq_true', JsFields.has] at h
    have ih := equalsFields_iff rest fb h.2
    simp only [equalsFields, Bool.and_eq_true, ih]
    constructor
    · rintro ⟨h0, hrest⟩ k v hl
      by_cases hk : k0 = k
      · simp only [JsFields.lookup, hk, if_true, Option.some.injEq] at hl
        subst hk
        subst hl
        cases hb : fb.lookup k0 with
        | none => simp [hb] at h0
        | some w => exact ⟨w, rfl, by simpa [hb] using h0⟩
      · simp only [JsFields.lookup, hk, if_false] at hl
        exact hrest k v hl
    · intro hall
      constructor
      · obtain ⟨w, hw, he⟩ := hall k0 v0 (by simp [JsFields.lookup])
        simp [hw, he]
      · intro k v hl
        have hk : ¬ k0 = k := by
          intro e
          subst e
          rw [hl] at h
          simp at h
        exact hall k v (by simp [JsFields.lookup, hk, hl])

theorem keys_subset_of_eq_length (fa fb : JsFields) (ha : fa.wf = true)
    (hlen : fa.length = fb.length)
    (hsub : ∀ k, (fa.lookup k).isSome = true → (fb.lookup k).isSome = true) :
    ∀ k, (fb.lookup k).isSome = true → (fa.lookup k).isSome = true := by
  have hnodup := JsFields.keys_nodup fa ha
  have hsubset : keys fa ⊆ keys fb := by
    intro k hk
    rw [JsFields.mem_keys_iff] at hk ⊢
    exact hsub k hk
  have hperm : (keys fa).Perm (keys fb) :=
    (List.subperm_of_subset hnodup hsubset).perm_of_length_le
      (by rw [← JsFields.length_eq_keys, ← JsFields.length_eq_keys, hlen])
  intro k hk
  rw [← JsFields.mem_keys_iff] at hk ⊢
  exact hperm.symm.subset hk

theorem equalsFields_symm_of_pointwise (fa fb : JsFields) (ha : fa.wf = true)
    (hb : fb.wf = true) (hlen : fa.length = fb.length)
    (h : equalsFields fa fb = true)
    (hpoint : ∀ k v, fa.lookup k = some v → ∀ w, w.wf = true →
      equals v w = true → equals w v = true) :
    equalsFields fb fa = true := by
  rw [equalsFields_iff fa fb ha] at h
  rw [equalsFields_iff fb fa hb]
  intro k w hw
  have hsome : (fa.lookup k).isSome = true :=
    keys_subset_of_eq_length fa fb ha hlen
      (fun k hk => by
        cases hv : fa.lookup k with
        | none => simp [hv] at hk
        | some v =>
          obtain ⟨w, hw, _⟩ := h k v hv
          simp [hw])
      k (by simp [hw])
  cases hv : fa.lookup k with
  | none => simp [hv] at hsome
  | some v =>
    obtain ⟨w2, hw2, he⟩ := h k v hv
    rw [hw] at hw2
    cases hw2
    exact ⟨v, rfl, hpoint k v hv w (JsFields.wf_of_lookup fb k w hb hw) he⟩

mutual
theorem equals_symm :
    ∀ (a b : JsVal), a.wf = true → b.wf = true → equals a b = true → equals b a = true
  | .undefined, b, _, _, h => by
    have hb : b = .undefined := by simpa [equals] using h
    subst hb; simp [equals]
  | .null, b, _, _, h => by
    have hb : b = .null := by simpa [equals] using h
    subst hb; simp [equals]
  | .bool x, b, _, _, h => by
    have hb : b = .bool x := by simpa [equals] using h
    subst hb; simp [equals]
  | .num x, b, _, _, h => by
    have hb : b = .num x := by simpa [equals] using h
    subst hb; simp [equals]
  | .str x, b, _, _, h => by
    have hb : b = .str x := by simpa [equals] using h
    subst hb; simp [equals]
  | .obj r fa, b, ha, hb, h => by
    cases b with
    | obj s fb =>
      simp only [equals, Bool.or_eq_true, Bool.and_eq_true, beq_iff_eq] at h ⊢
      rcases h with h | ⟨hlen, hf⟩
      · exact Or.inl h.symm
      · exact Or.inr ⟨hlen.symm,
          equalsFields_symm_of_pointwise fa fb ha hb hlen hf (equals_symm_fields fa ha)⟩
    | _ => simp [equals] at h
  | .arr r ea, b, ha, hb, h => by
    cases b with
    | arr s eb =>
      simp only [equals, Bool.or_eq_true, beq_iff_eq] at h ⊢
      rcases h with h | h
      · exact Or.inl h.symm
      · exact Or.inr (equals_symm_elems ea eb ha hb h)
    | _ => simp [equals] at h
theorem equals_symm_fields :
    ∀ (fa : JsFields), fa.wf = true → ∀ k v, fa.lookup k = some v →
      ∀ w, w.wf = true → equals v w = true → equals w v = true
  | .nil, _, k, v, hl, _, _, _ => by simp [JsFields.lookup] at hl
  | .cons k0 v0 rest, h, k, v, hl, w, hw, he => by
    simp only [JsFields.wf, Bool.and_eq_true] at h
    by_cases hk : k0 = k
    · simp only [JsFields.lookup, hk, if_true, Option.some.injEq] at hl
      subst hl
      exact equals_symm v0 w h.1.2 hw he
    · simp only [JsFields.lookup, hk, if_false] at hl
      exact equals_symm_fields rest h.2 k v hl w hw he
theorem equals_symm_elems :
    ∀ (ea eb : JsElems), ea.wf = true → eb.wf = true →
      equalsElems ea eb = true → equalsElems eb ea = true
  | .nil, eb, _, _, h => by
    have hb : eb = .nil := by simpa [equalsElems] using h
    subst hb; simp [equalsElems]
  | .cons v rest, eb, ha, hb, h => by
    cases eb with
    | nil => simp [equalsElems] at h
    | cons w rest2 =>
      simp only [JsElems.wf, Bool.and_eq_true] at ha hb
      simp only [equalsElems, Bool.and_eq_true] at h ⊢
      exact ⟨equals_symm v w ha.1 hb.1 h.1, equals_symm_elems rest rest2 ha.2 hb.2 h.2⟩
end

/-! ## The diff engine and the lifecycle driver agree on the no-op case -/

theorem eq_of_equals_of_isPrimitive (a b : JsVal) (ha : a.isPrimitive = true)
    (h : equals a b = true) : b = a := by
  cases a <;> simp_all [equals, JsVal.isPrimitive]

theorem shouldDeploy_undefined_inv (this : AwsIamRole Resolvable) (prevInstance : Option JsFields)
    (h : shouldDeploy this prevInstance = .undefined) :
    ∃ prev vs vp, prevInstance = some prev ∧
      prev.get "roleName" = .str (resolve this.roleName) ∧
      prev.lookup "service" = some vs ∧ equals (resolve this.service) vs = true ∧
      prev.lookup "policy" = some vp ∧ equals (resolve this.policy).toVal vp = true := by
  cases prevInstance with
  | none => simp [shouldDeploy] at h
  | some prev =>
    unfold shouldDeploy at h
    simp only [shouldDeployInputs_get_roleName, keys_shouldDeployInputs] at h
    cases h1 : strictEq (prev.get "roleName") (.str (resolve this.roleName)) with
    | false => simp [h1] at h
    | true =>
      have hsame := (strictEq_str_right _ _).1 h1
      cases h2 : equalsObjects (shouldDeployInputs this)
          (pick ["roleName", "service", "policy"] prev) with
      | false => simp [h1, h2] at h
      | true =>
        cases hr : prev.lookup "roleName" with
        | none =>
          cases hs : prev.lookup "service" <;> cases hp : prev.lookup "policy" <;>
            simp [equalsObjects, shouldDeployInputs, pick, hr, hs, hp, JsFields.length,
              equalsFields, JsFields.lookup] at h2
        | some vr =>
          cases hs : prev.lookup "service" with
          | none =>
            cases hp : prev.lookup "policy" <;>
              simp [equalsObjects, shouldDeployInputs, pick, hr, hs, hp, JsFields.length,
                equalsFields, JsFields.lookup] at h2
          | some vs =>
            cases hp : prev.lookup "policy" with
            | none =>
              simp [equalsObjects, shouldDeployInputs, pick, hr, hs, hp, JsFields.length,
                equalsFields, JsFields.lookup] at h2
            | some vp =>
              simp only [equalsObjects, shouldDeployInputs, pick, hr, hs, hp, JsFields.length,
                equalsFields, JsFields.lookup] at h2
              simp at h2
              exact ⟨prev, vs, vp, rfl, hsame, hs, h2.2.1, hp, h2.2.2⟩

/-- C13: for an instance with resolved inputs whose service is a primitive value (a
string, or absent), if `shouldDeploy` returns `undefined` for a previous instance then
`deploy` for that previous instance issues no effect at all (no provider request, no
settle wait) and completes.  Values are well formed: no object has a key twice. -/
theorem deploy_noop_of_shouldDeploy_undefined (iam : IAM) (this : AwsIamRole Id)
    (prevInstance : Option JsFields)
    (hservice : this.service.isPrimitive = true)
    (hwf : this.policy.toVal.wf = true)
    (hprev : ∀ prev, prevInstance = some prev → (prev.get "policy").wf = true)
    (h : shouldDeploy this.toResolvable prevInstance = .undefined) :
    (deploy iam this prevInstance).trace = [] ∧
      (deploy iam this prevInstance).outcome = .ok this := by
  obtain ⟨prev, vs, vp, hp, hsame, hs, hse, hpol, hpe⟩ :=
    shouldDeploy_undefined_inv this.toResolvable prevInstance h
  subst hp
  have hsame2 : prev.get "roleName" = .str this.roleName := hsame
  have hse2 : equals this.service vs = true := hse
  have hpe2 : equals this.policy.toVal vp = true := hpe
  have hvs : vs = this.service := eq_of_equals_of_isPrimitive _ _ hservice hse2
  have hgs : prev.get "service" = this.service := by simp [JsFields.get, hs, hvs]
  have hgp : prev.get "policy" = vp := by simp [JsFields.get, hpol]
  have h1 : strictEq (prev.get "service") this.service = true := by
    rw [hgs]
    exact strictEq_of_eq_of_isPrimitive _ hservice
  have hvp : vp.wf = true := by
    rw [← hgp]
    exact hprev prev rfl
  have h2 : equals (prev.get "policy") this.policy.toVal = true := by
    rw [hgp]
    exact equals_symm _ _ hwf hvp hpe2
  rw [deploy_update_path iam this prev hsame2]
  simp [h1, h2, pure_eq, Async.pure_bind]

/-- Witness of C13: `lambdaRole` against a previous instance with the same role name,
service and policy. -/
theorem deploy_noop_of_shouldDeploy_undefined_witness :
    shouldDeploy lambdaRole.toResolvable (some prevLambdaSame) = .undefined ∧
      (deploy acceptingIAM lambdaRole (some prevLambdaSame)).trace = [] :=
  ⟨by decide,
    (deploy_noop_of_shouldDeploy_undefined acceptingIAM lambdaRole (some prevLambdaSame)
      (by decide) (by decide) (fun prev hp => by cases hp; decide) (by decide)).1⟩

/-! ## The run dispatcher -/

theorem dispatch_bind_eq (α β : Type) (x : Dispatch α) (f : α → Dispatch β) :
    x >>= f = Dispatch.bind x f := rfl

theorem dispatch_pure_eq (α : Type) (a : α) : (pure a : Dispatch α) = ⟨[], .ok a⟩ := rfl

theorem dispatch_bind_ok {α β : Type} (t : List DispatchEvent) (a : α)
    (f : α → Dispatch β) :
    Dispatch.bind ⟨t, .ok a⟩ f = ⟨t ++ (f a).events, (f a).outcome⟩ := rfl

theorem dispatch_bind_error {α β : Type} (t : List DispatchEvent) (e : JsError)
    (f : α → Dispatch β) :
    Dispatch.bind ⟨t, .error e⟩ f = ⟨t, .error e⟩ := rfl

theorem dispatch_tryCatch_ok {α : Type} (t : List DispatchEvent) (a : α)
    (h : JsError → Dispatch α) :
    Dispatch.tryCatch ⟨t, .ok a⟩ h = ⟨t, .ok a⟩ := rfl

theorem dispatch_tryCatch_error {α : Type} (t : List DispatchEvent) (e : JsError)
    (h : JsError → Dispatch α) :
    Dispatch.tryCatch ⟨t, .error e⟩ h = ⟨t ++ (h e).events, (h e).outcome⟩ := rfl

theorem isSet_some (s : String) (h : s ≠ "") : isSet (some s) = true := by
  simp [isSet, h]

/-- With an instance name and no method name, none of the three cases of `runDeclarative`
applies: nothing is done and `undefined` is returned. -/
theorem runDeclarative_instance_without_method (registry : Registry)
    (fileContent : FileContent) (config : Config)
    (hi : isSet config.instanceName = true) (hm : isSet config.methodName = false) :
    runDeclarative registry fileContent config = ⟨[], .ok (.value .undefined)⟩ := by
  simp [runDeclarative, hi, hm, dispatch_pure_eq]

/-- C11: the code at the failing input.  A request with the instance name `myRole` and no
method name, for a project whose `serverless.yml` declares `myRole`: `run` resolves to
`undefined`; no component is constructed, no method is invoked and no error is reported. -/
theorem run_instance_without_method_is_silent :
    (run stubRegistry myAppProject instanceOnlyConfig).events = [] ∧
      (run stubRegistry myAppProject instanceOnlyConfig).outcome = .ok (.value .undefined) :=
  ⟨rfl, rfl⟩

theorem findInstanceStep_of_no_match (requested : String) (found : Option (String × String))
    (key : String) (h : (split key)[1]? ≠ some requested) :
    findInstanceStep (some requested) found key = found := by
  unfold findInstanceStep
  cases h0 : (split key)[0]? with
  | none => rfl
  | some c =>
    cases h1 : (split key)[1]? with
    | none => rfl
    | some i =>
      have hne : ¬ requested = i := by
        intro e
        rw [h1, e] at h
        exact h rfl
      simp [hne]

theorem findInstanceStep_of_match (requested type : String)
    (found : Option (String × String)) (key : String)
    (h0 : (split key)[0]? = some type) (h1 : (split key)[1]? = some requested) :
    findInstanceStep (some requested) found key = some (requested, type) := by
  simp [findInstanceStep, h0, h1]

theorem foldl_findInstanceStep_of_no_match (requested : String) (l : List String)
    (found : Option (String × String))
    (h : ∀ k ∈ l, (split k)[1]? ≠ some requested) :
    l.foldl (findInstanceStep (some requested)) found = found := by
  induction l generalizing found with
  | nil => rfl
  | cons k rest ih =>
    rw [List.foldl_cons, findInstanceStep_of_no_match requested found k
      (h k (List.mem_cons_self _ _))]
    exact ih found (fun k2 hk2 => h k2 (List.mem_cons_of_mem _ hk2))

theorem findInstance_of_no_match (requested : String) (components : Option JsFields)
    (h : ∀ k ∈ keys (components.getD .nil), (split k)[1]? ≠ some requested) :
    findInstance (some requested) components = none :=
  foldl_findInstanceStep_of_no_match requested _ none h

theorem findInstance_of_last_match (requested type : String)
    (components : Option JsFields) (pre post : List String) (key : String)
    (hk : keys (components.getD .nil) = pre ++ key :: post)
    (h0 : (split key)[0]? = some type) (h1 : (split key)[1]? = some requested)
    (hpost : ∀ k ∈ post, (split k)[1]? ≠ some requested) :
    findInstance (some requested) components = some (requested, type) := by
  unfold findInstance
  rw [hk, List.foldl_append, List.foldl_cons, findInstanceStep_of_match requested type _ key h0 h1]
  exact foldl_findInstanceStep_of_no_match requested post _ hpost

/-- C12, as stated, fails, in two ways.  The table has the entry `Nope::myThing`, whose
instance-local name is the requested instance, but `Nope` is not a component type:
`runDeclarative` throws `Component "Nope" is not a valid Component.` and constructs nothing.
And for the entry `AwsIamRole::myRole` with the requested method `info`, which the
component does not have, the component is constructed but nothing is invoked: the
`TypeError` of the call is handed to the error handler. -/
theorem runDeclarative_invalid_type_counterexample :
    "Nope::myThing" ∈ keys (myAppFile.components.getD .nil) ∧
      (split "Nope::myThing")[1]? = some "myThing" ∧
      (runDeclarative stubRegistry myAppFile (deployConfig "myThing")).events = [] ∧
      (runDeclarative stubRegistry myAppFile (deployConfig "myThing")).outcome =
        .error ⟨"Component \x22Nope\x22 is not a valid Component."⟩ ∧
      "AwsIamRole::myRole" ∈ keys (myAppFile.components.getD .nil) ∧
      (split "AwsIamRole::myRole")[1]? = some "myRole" ∧
      stubRegistry.coreComponentExists "AwsIamRole" = true ∧
      (runDeclarative stubRegistry myAppFile infoConfig).events =
        [.cliConfig (some "dev") "my-app",
         .construct "AwsIamRole" ⟨none, some "dev.my-app.myRole"⟩,
         .errorHandler ⟨"component[config.method] is not a function"⟩ "AwsIamRole"] ∧
      (runDeclarative stubRegistry myAppFile infoConfig).outcome =
        .ok (.reported ⟨"component[config.method] is not a function"⟩) :=
  ⟨by decide, by decide, rfl, rfl, by decide, by decide, rfl, rfl, rfl⟩

/-- C12, amended: with both an instance and a method requested, if no key of the table has
the requested instance as its second piece, `runDeclarative` throws
`Component instance "<instance>" does not exist in your project.` and constructs nothing;
otherwise, for the last key `Type::name` that matches: if `Type` is not a component type,
`runDeclarative` throws `Component "<Type>" is not a valid Component.` and constructs
nothing; if it is, the component of that type is constructed with the id
`<stage>.<rootName>.<instanceName>`; if the constructor throws, the error propagates and
nothing is invoked; if the constructed component has the requested method, that method is
invoked on it (an error it raises is handed to the error handler under the type name and
returned); if it does not have the method, nothing is invoked and the `TypeError` of the
call is handed to the error handler under the type name and returned. -/
theorem runDeclarative_instance_and_method (registry : Registry)
    (fileContent : FileContent) (config : Config) (inst method : String)
    (hi : config.instanceName = some inst) (hin : inst ≠ "")
    (hm : config.methodName = some method) (hmn : method ≠ "") :
    ((∀ key ∈ keys (fileContent.components.getD .nil), (split key)[1]? ≠ some inst) →
        runDeclarative registry fileContent config =
          ⟨[], .error ⟨"Component instance \x22" ++ inst ++
            "\x22 does not exist in your project."⟩⟩) ∧
      (∀ (pre post : List String) (key type : String),
        keys (fileContent.components.getD .nil) = pre ++ key :: post →
        (split key)[0]? = some type → (split key)[1]? = some inst →
        (∀ k ∈ post, (split k)[1]? ≠ some inst) →
        (registry.coreComponentExists type = false →
          runDeclarative registry fileContent config =
            ⟨[], .error ⟨"Component \x22" ++ type ++ "\x22 is not a valid Component."⟩⟩) ∧
        (registry.coreComponentExists type = true →
          ∃ rest, (runDeclarative registry fileContent config).events =
            .cliConfig config.stage fileContent.name ::
              .construct (registry.loadComponent type).name
                ⟨none, some (config.stage.getD "undefined" ++ "." ++ fileContent.name ++
                  "." ++ inst)⟩ :: rest) ∧
        (registry.coreComponentExists type = true →
          ∀ e, (registry.loadComponent type).construct
            ⟨none, some (config.stage.getD "undefined" ++ "." ++ fileContent.name ++
              "." ++ inst)⟩ = .error e →
          runDeclarative registry fileContent config =
            ⟨[.cliConfig config.stage fileContent.name,
              .construct (registry.loadComponent type).name
                ⟨none, some (config.stage.getD "undefined" ++ "." ++ fileContent.name ++
                  "." ++ inst)⟩], .error e⟩) ∧
        (registry.coreComponentExists type = true →
          (registry.loadComponent type).construct
            ⟨none, some (config.stage.getD "undefined" ++ "." ++ fileContent.name ++
              "." ++ inst)⟩ = .ok () →
          (registry.loadComponent type).hasMethod method = true →
          (runDeclarative registry fileContent config).events =
              [.cliConfig config.stage fileContent.name,
               .construct (registry.loadComponent type).name
                ⟨none, some (config.stage.getD "undefined" ++ "." ++ fileContent.name ++
                  "." ++ inst)⟩,
               .invoke (registry.loadComponent type).name
                ⟨none, some (config.stage.getD "undefined" ++ "." ++ fileContent.name ++
                  "." ++ inst)⟩ (some method)] ++
              (match (registry.loadComponent type).call
                  ⟨none, some (config.stage.getD "undefined" ++ "." ++ fileContent.name ++
                    "." ++ inst)⟩ (some method) with
               | .ok _ => []
               | .error e => [.errorHandler e type]) ∧
            (runDeclarative registry fileContent config).outcome =
              .ok (match (registry.loadComponent type).call
                  ⟨none, some (config.stage.getD "undefined" ++ "." ++ fileContent.name ++
                    "." ++ inst)⟩ (some method) with
               | .ok v => .value v
               | .error e => .reported e)) ∧
        (registry.coreComponentExists type = true →
          (registry.loadComponent type).construct
            ⟨none, some (config.stage.getD "undefined" ++ "." ++ fileContent.name ++
              "." ++ inst)⟩ = .ok () →
          (registry.loadComponent type).hasMethod method = false →
          runDeclarative registry fileContent config =
            ⟨[.cliConfig config.stage fileContent.name,
              .construct (registry.loadComponent type).name
                ⟨none, some (config.stage.getD "undefined" ++ "." ++ fileContent.name ++
                  "." ++ inst)⟩,
              .errorHandler ⟨"component[config.method] is not a function"⟩ type],
             .ok (.reported ⟨"component[config.method] is not a function"⟩)⟩)) := by
  constructor
  · intro hno
    have hf := findInstance_of_no_match inst fileContent.components hno
    simp [runDeclarative, hi, hm, hf, Dispatch.throw, isSet_some inst hin, isSet_some method hmn]
  · intro pre post key type hk h0 h1 hpost
    have hf := findInstance_of_last_match inst type fileContent.components pre post key
      hk h0 h1 hpost
    refine ⟨?_, ?_, ?_, ?_, ?_⟩
    · intro hc
      simp [runDeclarative, hi, hm, hf, hc, Dispatch.throw, isSet_some inst hin,
        isSet_some method hmn]
    · intro hc
      cases hcon : (registry.loadComponent type).construct
          ⟨none, some (config.stage.getD "undefined" ++ "." ++ fileContent.name ++
            "." ++ inst)⟩ with
      | error e =>
        exact ⟨[], by
          simp [runDeclarative, hi, hm, hf, hc, isSet_some inst hin, isSet_some method hmn,
            cliConfig,
            ComponentClass.new, hcon, dispatch_bind_eq, dispatch_bind_ok,
            dispatch_bind_error]⟩
      | ok u =>
        exact ⟨_, by
          simp only [runDeclarative, hi, hm, hf, hc, isSet_some inst hin,
            isSet_some method hmn, cliConfig,
            ComponentClass.new, hcon, dispatch_bind_eq, dispatch_bind_ok,
            dispatch_bind_error, Bool.not_true, Bool.and_true, Bool.and_false,
            Bool.false_eq_true, if_false, if_true, Bool.true_and, List.cons_append,
            List.nil_append, List.singleton_append]
          rfl⟩
    · intro hc e hcon
      simp [runDeclarative, hi, hm, hf, hc, isSet_some inst hin, isSet_some method hmn,
        cliConfig, ComponentClass.new, hcon, dispatch_bind_eq, dispatch_bind_ok,
        dispatch_bind_error]
    · intro hc hcon hhas
      cases hcall : (registry.loadComponent type).call
          ⟨none, some (config.stage.getD "undefined" ++ "." ++ fileContent.name ++
            "." ++ inst)⟩ (some method) <;>
        simp [runDeclarative, hi, hm, hf, hc, isSet_some inst hin, isSet_some method hmn,
          cliConfig,
          ComponentClass.new, ComponentClass.invoke, hcon, hhas, hcall, dispatch_bind_eq,
          dispatch_bind_ok, dispatch_bind_error, Dispatch.tryCatch, errorHandler,
          Except.map]
    · intro hc hcon hhas
      simp [runDeclarative, hi, hm, hf, hc, isSet_some inst hin, isSet_some method hmn,
        cliConfig, ComponentClass.new, ComponentClass.invoke, hcon, hhas, dispatch_bind_eq,
        dispatch_bind_ok, dispatch_bind_error, Dispatch.tryCatch, Dispatch.throw,
        errorHandler]

/-- Witness of C12 (amended): the method `deploy` of the instance `myRole` is requested;
the role component is constructed under the id `dev.my-app.myRole` and `deploy` is invoked
on it. -/
theorem runDeclarative_instance_and_method_witness :
    (runDeclarative stubRegistry myAppFile (deployConfig "myRole")).events =
        [.cliConfig (some "dev") "my-app",
         .construct "AwsIamRole" ⟨none, some "dev.my-app.myRole"⟩,
         .invoke "AwsIamRole" ⟨none, some "dev.my-app.myRole"⟩ (some "deploy")] ∧
      (runDeclarative stubRegistry myAppFile (deployConfig "myRole")).outcome =
        .ok (.value (.str "done")) :=
  (runDeclarative_instance_and_method stubRegistry myAppFile (deployConfig "myRole")
    "myRole" "deploy" rfl (by decide) rfl (by decide)).2
    [] ["Nope::myThing"] "AwsIamRole::myRole" "AwsIamRole" (by decide) (by decide)
    (by decide) (by decide) |>.2.2.2.1 (by decide) rfl (by decide)

end Components
